import Mathlib

/-!
# Verification of the prime-send-receive-go ledger core

A shallow embedding, in Lean 4, of the parts of the repository that the
frozen claims C1..C10 are about:

* the relational (SQLite) subledger: `SubledgerService.ProcessTransaction`
  (src/internal/database/balances_test.go, second document, lines 182-305),
  the SQL statements of src/internal/database/queries.go, and the
  `database.Service` wrappers of src/unnamed/part_003;
* the polling reconciler's withdrawal and deposit paths
  (src/unnamed/part_006 and src/internal/listener/deposit.go, second
  document), including symbol normalization and idempotency-key matching
  (src/internal/listener/common.go);
* the withdrawal coordinator's balance verification and idempotency-key
  generation (src/cmd/withdrawal/main.go);
* `GetMostRecentTransactionTime` of both backends
  (src/internal/database/balances_test.go second document, and
  src/unnamed/part_007).

Modelling conventions:

* `decimal.Decimal` values are embedded as `ℚ`: the operations the code
  uses (`Add`, `Sub`, `Neg`, `IsZero`, `LessThan`, `GreaterThanOrEqual`,
  `Equal`) are exact on `decimal.Decimal` and agree with the rational
  operations.
* Go `error` values are embedded as the inductive `GoError`, which keeps
  the distinction between the two sentinel families of the repository
  (`database.Err...` of src/internal/database/subledger.go and
  `store.Err...` of src/unnamed/part_009 are distinct `errors.New`
  values, so `errors.Is` never identifies one with the other), and keeps
  `fmt.Errorf` wrapping so that both `errors.Is` and the string checks
  (`strings.Contains`, `==` on `err.Error()`) can be translated.
* SQL tables are embedded as lists of rows in insertion order; a SQL
  `UPDATE ... WHERE` is a map over the rows guarded by the WHERE clause,
  and its `RowsAffected` is the count of rows matching the clause.
* `uuid.New()` is embedded as a counter `nextId` drawn from the store
  (only freshness matters to the claims).
* a function that mutates the database is embedded as
  `Store → ... → Except GoError Store`; an `.error` result means the
  enclosing SQL transaction rolled back, so the caller continues with the
  unchanged input store.
-/

/-- Go `error` values: the sentinel errors of the `database` package
(src/internal/database/subledger.go lines 25-29) and of the `store` package
(src/unnamed/part_009 lines 14-18), plain `fmt.Errorf` messages, and
`fmt.Errorf` wrapping with `%w` (`wrapf pre e post` renders as
`pre ++ e.render ++ post`). -/
inductive GoError where
  | dbDuplicate
  | dbConcurrent
  | dbUserNotFound
  | storeDuplicate
  | storeConcurrent
  | storeUserNotFound
  | msg (s : String)
  | wrapf (pre : String) (e : GoError) (post : String)
deriving DecidableEq, Repr

/-- `errors.Is err target` for a sentinel `target`: unwrap `%w` chains and
compare error identity. A `msg` error is never `Is` a sentinel, and the two
sentinel families are distinct. -/
def GoError.errorsIs : GoError → GoError → Bool
  | .wrapf _ e _, t => GoError.errorsIs e t
  | e, t => e == t

/-- `err.Error()`: the rendered message. Both sentinel families render to the
same strings (`errors.New` with equal text in the two packages). -/
def GoError.render : GoError → String
  | .dbDuplicate => "duplicate transaction"
  | .dbConcurrent => "concurrent modification detected"
  | .dbUserNotFound => "no user found for address"
  | .storeDuplicate => "duplicate transaction"
  | .storeConcurrent => "concurrent modification detected"
  | .storeUserNotFound => "no user found for address"
  | .msg s => s
  | .wrapf pre e post => pre ++ e.render ++ post

/-- A row of the `users` table (schema in src/unnamed/part_003 lines
111-120). -/
structure UserRow where
  id : String
  name : String
  email : String
  active : Bool
deriving DecidableEq, Repr

/-- A row of the `addresses` table (schema in src/unnamed/part_003 lines
127-137). -/
structure AddressRow where
  userId : String
  asset : String
  network : String
  address : String
  walletId : String
  accountIdentifier : String
deriving DecidableEq, Repr

/-- A row of the `account_balances` table (schema in
src/internal/database/subledger.go lines 45-54). -/
structure BalanceRow where
  userId : String
  asset : String
  balance : ℚ
  lastTransactionId : Option Nat
  version : Nat
deriving DecidableEq, Repr

/-- A row of the `transactions` table (schema in
src/internal/database/subledger.go lines 57-71). `id` is the generated
internal id; `created_at`/`processed_at` carry no information the claims
use and are omitted. -/
structure TxRow where
  id : Nat
  userId : String
  asset : String
  transactionType : String
  amount : ℚ
  balanceBefore : ℚ
  balanceAfter : ℚ
  externalTransactionId : String
  address : String
  reference : String
  status : String
deriving DecidableEq, Repr

/-- The relational store: the four tables used by the claims plus the
id generator. -/
structure Store where
  users : List UserRow
  addresses : List AddressRow
  balances : List BalanceRow
  transactions : List TxRow
  nextId : Nat
deriving DecidableEq, Repr

/-- `ProcessTransactionParams` (src/internal/database/balances_test.go,
second document, lines 171-179). -/
structure ProcessTransactionParams where
  userId : String
  asset : String
  transactionType : String
  amount : ℚ
  externalTxId : String
  address : String
  reference : String
deriving DecidableEq, Repr

/-- `queryCheckDuplicateTransaction` (src/internal/database/queries.go lines
83-84): `SELECT id FROM transactions WHERE external_transaction_id = ? LIMIT 1`
scanned into a row; `true` iff some row matched. -/
def checkDuplicateTransaction (txs : List TxRow) (ext : String) : Bool :=
  txs.any (fun t => t.externalTransactionId == ext)

/-- `queryGetAccountBalance` (src/internal/database/queries.go lines 86-89):
the single row of `account_balances` for `(user_id, asset)` (the table is
UNIQUE on that pair; the embedding returns the first matching row). -/
def getAccountBalance (rows : List BalanceRow) (u a : String) : Option BalanceRow :=
  rows.find? (fun r => r.userId == u && r.asset == a)

/-- The WHERE clause of `queryUpdateAccountBalance`
(src/internal/database/queries.go line 106):
`WHERE user_id = ? AND asset = ? AND version = ?`. -/
def updWhere (u a : String) (v : Nat) (r : BalanceRow) : Bool :=
  r.userId == u && r.asset == a && r.version == v

/-- The SET clause of `queryUpdateAccountBalance` (src/internal/database/queries.go
line 105) applied to one row when the WHERE clause matches:
`SET balance = ?, last_transaction_id = ?, version = version + 1`. -/
def updRow (newBal : ℚ) (txId : Nat) (u a : String) (v : Nat) (r : BalanceRow) : BalanceRow :=
  if updWhere u a v r then
    { r with balance := newBal, lastTransactionId := some txId, version := r.version + 1 }
  else r

/-- `queryUpdateAccountBalance` (src/internal/database/queries.go lines
103-106): `UPDATE account_balances SET balance = ?, last_transaction_id = ?,
version = version + 1 WHERE user_id = ? AND asset = ? AND version = ?`.
Returns the updated table and `RowsAffected`. -/
def updateAccountBalance (rows : List BalanceRow) (newBal : ℚ) (txId : Nat)
    (u a : String) (v : Nat) : List BalanceRow × Nat :=
  (rows.map (updRow newBal txId u a v), (rows.filter (updWhere u a v)).length)

/-- The optimistic-locking tail of `ProcessTransaction`
(src/internal/database/balances_test.go, second document, lines 273-285):
run the UPDATE with the version read at the start of the operation; if it
touched no row, the operation fails with
`"balance update failed - " ++ ErrConcurrentModification` and the enclosing
SQL transaction rolls back. -/
def optimisticCommit (rows : List BalanceRow) (newBal : ℚ) (txId : Nat)
    (u a : String) (readVersion : Nat) : Except GoError (List BalanceRow) :=
  let res := updateAccountBalance rows newBal txId u a readVersion
  if res.2 == 0 then .error (.wrapf "balance update failed - " .dbConcurrent "")
  else .ok res.1

/-- The transaction row inserted by `queryInsertTransaction`
(src/internal/database/queries.go lines 95-101) with the values
`ProcessTransaction` passes: status `"confirmed"`, `balance_before` the
read balance, `balance_after` the read balance plus the amount. -/
def mkTxRow (txId : Nat) (p : ProcessTransactionParams) (balBefore balAfter : ℚ) : TxRow :=
  { id := txId, userId := p.userId, asset := p.asset,
    transactionType := p.transactionType, amount := p.amount,
    balanceBefore := balBefore, balanceAfter := balAfter,
    externalTransactionId := p.externalTxId, address := p.address,
    reference := p.reference, status := "confirmed" }

/-- `SubledgerService.ProcessTransaction`
(src/internal/database/balances_test.go, second document, lines 182-305):
1. if the external transaction id is non-empty and already appears on a
   stored transaction row, fail with the wrapped `ErrDuplicateTransaction`
   before opening the SQL transaction (no mutation);
2. read the `(user_id, asset)` balance row, or create it with balance 0 and
   version 1;
3. insert the journal row with `balance_before`/`balance_after` and status
   `"confirmed"`;
4. update the balance row only where its version still equals the version
   read in step 2 (`optimisticCommit`); on a mismatch roll back;
5. commit.
(The optional journal-entry rows of `addJournalEntries` touch only the
`journal_entries` table, which no claim mentions; they are omitted.) -/
def processTransaction (st : Store) (p : ProcessTransactionParams) : Except GoError Store :=
  if p.externalTxId != "" && checkDuplicateTransaction st.transactions p.externalTxId then
    .error (.wrapf "" .dbDuplicate (": external_transaction_id " ++ p.externalTxId ++ " already exists"))
  else
    match getAccountBalance st.balances p.userId p.asset with
    | some row =>
      let currentBalance := row.balance
      let txId := st.nextId
      let newBalance := currentBalance + p.amount
      match optimisticCommit st.balances newBalance txId p.userId p.asset row.version with
      | .error e => .error e
      | .ok bals1 =>
        .ok { st with balances := bals1,
                      transactions := st.transactions ++ [mkTxRow txId p currentBalance newBalance],
                      nextId := st.nextId + 1 }
    | none =>
      let newRow : BalanceRow :=
        { userId := p.userId, asset := p.asset, balance := 0,
          lastTransactionId := none, version := 1 }
      let txId := st.nextId
      let newBalance := (0 : ℚ) + p.amount
      match optimisticCommit (st.balances ++ [newRow]) newBalance txId p.userId p.asset 1 with
      | .error e => .error e
      | .ok bals1 =>
        .ok { st with balances := bals1,
                      transactions := st.transactions ++ [mkTxRow txId p 0 newBalance],
                      nextId := st.nextId + 1 }

/-- `queryGetBalance` as used by `SubledgerService.GetBalance`
(src/unnamed/part_002 lines 14-36): the stored balance for
`(user_id, asset)`, or zero when no row exists. -/
def getBalanceRows (rows : List BalanceRow) (u a : String) : ℚ :=
  match rows.find? (fun r => r.userId == u && r.asset == a) with
  | some r => r.balance
  | none => 0

/-- `Service.GetUserBalance` = `SubledgerService.GetBalance` on the store. -/
def getBalance (st : Store) (u a : String) : ℚ :=
  getBalanceRows st.balances u a

/-- `queryReconcileBalance` (src/internal/database/queries.go lines 77-80):
`SELECT COALESCE(SUM(amount), 0) FROM transactions WHERE user_id = ? AND
asset = ? AND status = 'confirmed'`. -/
def confirmedSum (txs : List TxRow) (u a : String) : ℚ :=
  ((txs.filter (fun t => t.userId == u && t.asset == a && t.status == "confirmed")).map
    (fun t => t.amount)).sum

/-- `queryGetUserById` (src/internal/database/queries.go lines 30-33):
the user with this id, active only. -/
def getUserById (st : Store) (userId : String) : Option UserRow :=
  st.users.find? (fun u => u.id == userId && u.active)

/-- `queryGetActiveUsers` (src/internal/database/queries.go lines 21-25),
as used by `GetUsers`. -/
def getUsers (st : Store) : List UserRow :=
  st.users.filter (fun u => u.active)

/-- `queryFindUserByAddress` (src/internal/database/queries.go lines 58-63):
join of `users` and `addresses` on `LOWER(a.address) = LOWER(?)` and
`u.active = 1`; the first resulting row. -/
def findUserByAddress (st : Store) (addr : String) : Option (UserRow × AddressRow) :=
  (st.addresses.filterMap (fun a =>
    if a.address.toLower == addr.toLower then
      match st.users.find? (fun u => u.id == a.userId && u.active) with
      | some u => some (u, a)
      | none => none
    else none)).head?

deriving instance DecidableEq for Except

example :
    processTransaction { users := [], addresses := [], balances := [], transactions := [], nextId := 0 }
      { userId := "u1", asset := "BTC", transactionType := "deposit", amount := 2,
        externalTxId := "tx1", address := "addr1", reference := "" }
      = .ok { users := [], addresses := [],
              balances := [{ userId := "u1", asset := "BTC", balance := 2,
                             lastTransactionId := some 0, version := 2 }],
              transactions := [{ id := 0, userId := "u1", asset := "BTC",
                                 transactionType := "deposit", amount := 2,
                                 balanceBefore := 0, balanceAfter := 2,
                                 externalTransactionId := "tx1", address := "addr1",
                                 reference := "", status := "confirmed" }],
              nextId := 1 } := by
  norm_num [processTransaction, checkDuplicateTransaction, getAccountBalance, updRow, updWhere,
    optimisticCommit, updateAccountBalance, mkTxRow]

/-! ## List-level lemmas about the balance-row UPDATE -/

theorem updRow_userId (nb : ℚ) (tid : Nat) (u a : String) (v : Nat) (r : BalanceRow) :
    (updRow nb tid u a v r).userId = r.userId := by
  unfold updRow; split <;> rfl

theorem updRow_asset (nb : ℚ) (tid : Nat) (u a : String) (v : Nat) (r : BalanceRow) :
    (updRow nb tid u a v r).asset = r.asset := by
  unfold updRow; split <;> rfl

theorem updRow_of_false {u a : String} {v : Nat} {r : BalanceRow} (nb : ℚ) (tid : Nat)
    (h : updWhere u a v r = false) : updRow nb tid u a v r = r := by
  unfold updRow; rw [h]; rfl

theorem find?_map_comm {f : BalanceRow → BalanceRow} {p : BalanceRow → Bool}
    (hp : ∀ x, p (f x) = p x) :
    ∀ l : List BalanceRow, (l.map f).find? p = (l.find? p).map f := by
  intro l
  induction l with
  | nil => rfl
  | cons hd tl ih =>
    by_cases h : p hd = true
    · simp [List.find?_cons, hp, h]
    · simp only [List.map_cons, List.find?_cons]
      rw [hp hd]
      simp only [Bool.not_eq_true] at h
      rw [h]
      exact ih

theorem balFind_pred_updRow (nb : ℚ) (tid : Nat) (u a : String) (v : Nat) (u' a' : String) :
    ∀ x : BalanceRow,
      ((updRow nb tid u a v x).userId == u' && (updRow nb tid u a v x).asset == a') =
      (x.userId == u' && x.asset == a') := by
  intro x
  rw [updRow_userId, updRow_asset]

/-- An UPDATE for `(u, a)` leaves the looked-up balance of any other
`(user, asset)` pair unchanged. -/
theorem getBalanceRows_update_other (rows : List BalanceRow) (nb : ℚ) (tid : Nat)
    (u a : String) (v : Nat) (u' a' : String) (hne : ¬(u' = u ∧ a' = a)) :
    getBalanceRows (updateAccountBalance rows nb tid u a v).1 u' a' = getBalanceRows rows u' a' := by
  unfold updateAccountBalance
  induction rows with
  | nil => rfl
  | cons hd tl ih =>
    simp only [List.map_cons]
    unfold getBalanceRows
    rw [List.find?_cons, List.find?_cons]
    rw [balFind_pred_updRow nb tid u a v u' a' hd]
    by_cases hhd : (hd.userId == u' && hd.asset == a') = true
    · rw [hhd]
      show (updRow nb tid u a v hd).balance = hd.balance
      simp only [Bool.and_eq_true, beq_iff_eq] at hhd
      have hw : updWhere u a v hd = false := by
        unfold updWhere
        rcases not_and_or.mp hne with h | h
        · have hx : (hd.userId == u) = false := by
            simp only [hhd.1, beq_eq_false_iff_ne, ne_eq]
            exact h
          simp [hx]
        · have hx : (hd.asset == a) = false := by
            simp only [hhd.2, beq_eq_false_iff_ne, ne_eq]
            exact h
          simp [hx]
      rw [updRow_of_false nb tid hw]
    · rw [Bool.not_eq_true] at hhd
      rw [hhd]
      unfold getBalanceRows at ih
      exact ih

/-- After the UPDATE keyed by the version of the row the SELECT returned,
the lookup returns that row with the new balance, the new last-transaction
id, and the version incremented. -/
theorem getAccountBalance_update_self (rows : List BalanceRow) (nb : ℚ) (tid : Nat)
    (u a : String) (r : BalanceRow) (hfind : getAccountBalance rows u a = some r) :
    getAccountBalance (updateAccountBalance rows nb tid u a r.version).1 u a =
      some { r with balance := nb, lastTransactionId := some tid, version := r.version + 1 } := by
  unfold getAccountBalance at hfind ⊢
  unfold updateAccountBalance
  rw [find?_map_comm (balFind_pred_updRow nb tid u a r.version u a)]
  rw [hfind]
  have hpr := List.find?_some hfind
  simp only [Bool.and_eq_true, beq_iff_eq] at hpr
  have hw : updWhere u a r.version r = true := by
    unfold updWhere
    simp [hpr.1, hpr.2]
  simp only [Option.map_some']
  unfold updRow
  rw [hw]
  simp

/-- The UPDATE keyed by the version the SELECT returned always touches the
returned row, so `RowsAffected` is nonzero. -/
theorem update_rowsAffected_ne_zero (rows : List BalanceRow) (nb : ℚ) (tid : Nat)
    (u a : String) (r : BalanceRow) (hfind : getAccountBalance rows u a = some r) :
    (updateAccountBalance rows nb tid u a r.version).2 ≠ 0 := by
  unfold updateAccountBalance
  simp only
  have hmem := List.mem_of_find?_eq_some hfind
  have hpr := List.find?_some hfind
  simp only [Bool.and_eq_true, beq_iff_eq] at hpr
  have hr : r ∈ rows.filter (updWhere u a r.version) := by
    rw [List.mem_filter]
    refine ⟨hmem, ?_⟩
    unfold updWhere
    simp [hpr.1, hpr.2]
  have := List.length_pos_of_mem hr
  omega

/-- Fresh-row case: when no `(user, asset)` balance row exists,
`ProcessTransaction` appends one with balance 0 and version 1, and the
UPDATE keyed by version 1 touches exactly that appended row. -/
theorem update_append_fresh (rows : List BalanceRow) (nb : ℚ) (tid : Nat)
    (u a : String) (hnone : getAccountBalance rows u a = none) :
    updateAccountBalance
        (rows ++ [{ userId := u, asset := a, balance := 0, lastTransactionId := none, version := 1 }])
        nb tid u a 1 =
      (rows ++ [{ userId := u, asset := a, balance := nb, lastTransactionId := some tid, version := 2 }], 1) := by
  unfold getAccountBalance at hnone
  have hall := List.find?_eq_none.mp hnone
  have hwfalse : ∀ x ∈ rows, updWhere u a 1 x = false := by
    intro x hx
    have hx2 := hall x hx
    simp only [Bool.and_eq_true, not_and_or, Bool.not_eq_true] at hx2
    unfold updWhere
    rcases hx2 with h | h <;> simp [h]
  unfold updateAccountBalance
  simp only [List.map_append, List.filter_append, Prod.mk.injEq]
  have hnewmap :
      updRow nb tid u a 1
        { userId := u, asset := a, balance := 0, lastTransactionId := none, version := 1 } =
      { userId := u, asset := a, balance := nb, lastTransactionId := some tid, version := 2 } := by
    unfold updRow updWhere
    norm_num
  refine ⟨?_, ?_⟩
  · have hmap : rows.map (updRow nb tid u a 1) = rows := by
      calc rows.map (updRow nb tid u a 1)
          = rows.map id := List.map_congr_left (fun x hx => updRow_of_false nb tid (hwfalse x hx))
        _ = rows := List.map_id rows
    rw [hmap]
    simp [hnewmap]
  · have hfil : rows.filter (updWhere u a 1) = [] := by
      rw [List.filter_eq_nil_iff]
      intro x hx
      rw [hwfalse x hx]
      simp
    rw [hfil]
    have hnewfil :
        List.filter (updWhere u a 1)
          [{ userId := u, asset := a, balance := 0, lastTransactionId := none, version := 1 }] =
        [{ userId := u, asset := a, balance := 0, lastTransactionId := none, version := 1 }] := by
      unfold updWhere
      simp
    rw [hnewfil]
    rfl

/-! ## Characterization of `ProcessTransaction` -/

/-- Non-empty duplicate external id: `ProcessTransaction` fails with the
wrapped `database.ErrDuplicateTransaction` before opening the SQL
transaction. -/
theorem processTransaction_dup (st : Store) (p : ProcessTransactionParams)
    (hne : p.externalTxId ≠ "")
    (hdup : ∃ t ∈ st.transactions, t.externalTransactionId = p.externalTxId) :
    processTransaction st p =
      .error (.wrapf "" .dbDuplicate
        (": external_transaction_id " ++ p.externalTxId ++ " already exists")) := by
  unfold processTransaction
  rw [if_pos]
  rw [Bool.and_eq_true]
  constructor
  · simpa using hne
  · unfold checkDuplicateTransaction
    rw [List.any_eq_true]
    obtain ⟨t, ht, he⟩ := hdup
    exact ⟨t, ht, by simp [he]⟩

/-- Everything a successful `ProcessTransaction` did: users and addresses
untouched, exactly one confirmed journal row appended whose
`balance_before`/`balance_after` bracket the amount, the external id was
not already present (or was empty), the `(user, asset)` balance moved by
exactly the amount, and every other `(user, asset)` balance is unchanged. -/
theorem processTransaction_ok_spec (st : Store) (p : ProcessTransactionParams) (st' : Store)
    (h : processTransaction st p = .ok st') :
    st'.users = st.users ∧ st'.addresses = st.addresses ∧ st'.nextId = st.nextId + 1 ∧
    st'.transactions = st.transactions ++
      [mkTxRow st.nextId p (getBalance st p.userId p.asset)
        (getBalance st p.userId p.asset + p.amount)] ∧
    (p.externalTxId = "" ∨ ∀ t ∈ st.transactions, t.externalTransactionId ≠ p.externalTxId) ∧
    getBalance st' p.userId p.asset = getBalance st p.userId p.asset + p.amount ∧
    (∀ u' a', ¬(u' = p.userId ∧ a' = p.asset) → getBalance st' u' a' = getBalance st u' a') := by
  unfold processTransaction at h
  by_cases hdup : (p.externalTxId != "" && checkDuplicateTransaction st.transactions p.externalTxId) = true
  · rw [if_pos hdup] at h
    exact absurd h (by simp)
  · rw [if_neg hdup] at h
    have hnotdup : p.externalTxId = "" ∨
        ∀ t ∈ st.transactions, t.externalTransactionId ≠ p.externalTxId := by
      rw [Bool.and_eq_true, not_and_or] at hdup
      rcases hdup with h1 | h1
      · left
        simpa using h1
      · right
        intro t ht he
        apply h1
        unfold checkDuplicateTransaction
        rw [List.any_eq_true]
        exact ⟨t, ht, by simp [he]⟩
    cases hfind : getAccountBalance st.balances p.userId p.asset with
    | some row =>
      simp only [hfind] at h
      have haff := update_rowsAffected_ne_zero st.balances (row.balance + p.amount)
        st.nextId p.userId p.asset row hfind
      have hoc : optimisticCommit st.balances (row.balance + p.amount) st.nextId
          p.userId p.asset row.version =
          .ok (updateAccountBalance st.balances (row.balance + p.amount) st.nextId
            p.userId p.asset row.version).1 := by
        unfold optimisticCommit
        rw [if_neg (by simpa using haff)]
      rw [hoc] at h
      have hst' := (Except.ok.inj h).symm
      have hbal : getBalance st p.userId p.asset = row.balance := by
        unfold getBalance getBalanceRows
        unfold getAccountBalance at hfind
        rw [hfind]
      subst hst'
      refine ⟨rfl, rfl, rfl, ?_, hnotdup, ?_, ?_⟩
      · rw [hbal]
      · rw [hbal]
        unfold getBalance getBalanceRows
        have hself := getAccountBalance_update_self st.balances (row.balance + p.amount)
          st.nextId p.userId p.asset row hfind
        unfold getAccountBalance at hself
        simp only at hself ⊢
        rw [hself]
      · intro u' a' hne
        have hother := getBalanceRows_update_other st.balances (row.balance + p.amount)
          st.nextId p.userId p.asset row.version u' a' hne
        unfold getBalance
        simpa using hother
    | none =>
      simp only [hfind] at h
      have hfreshpair := update_append_fresh st.balances (0 + p.amount) st.nextId
        p.userId p.asset hfind
      have hoc : optimisticCommit
          (st.balances ++ [{ userId := p.userId, asset := p.asset, balance := 0,
                             lastTransactionId := none, version := 1 }])
          (0 + p.amount) st.nextId p.userId p.asset 1 =
          .ok (st.balances ++ [{ userId := p.userId, asset := p.asset, balance := 0 + p.amount,
                                 lastTransactionId := some st.nextId, version := 2 }]) := by
        unfold optimisticCommit
        rw [hfreshpair]
        simp
      rw [hoc] at h
      have hst' := (Except.ok.inj h).symm
      have hbal : getBalance st p.userId p.asset = 0 := by
        unfold getBalance getBalanceRows
        unfold getAccountBalance at hfind
        rw [hfind]
      have hnomatch := List.find?_eq_none.mp hfind
      subst hst'
      refine ⟨rfl, rfl, rfl, ?_, hnotdup, ?_, ?_⟩
      · rw [hbal]
      · rw [hbal]
        unfold getBalance getBalanceRows
        simp only [List.find?_append]
        rw [List.find?_eq_none.mpr hnomatch]
        simp
      · intro u' a' hne
        unfold getBalance getBalanceRows
        simp only [List.find?_append]
        have hx : List.find? (fun r : BalanceRow => r.userId == u' && r.asset == a')
            [{ userId := p.userId, asset := p.asset, balance := 0 + p.amount,
               lastTransactionId := some st.nextId, version := 2 }] = none := by
          rw [List.find?_eq_none]
          intro x hxmem
          simp only [List.mem_singleton] at hxmem
          subst hxmem
          show ¬(p.userId == u' && p.asset == a') = true
          simp only [Bool.and_eq_true, beq_iff_eq]
          rintro ⟨h1, h2⟩
          exact hne ⟨h1.symm, h2.symm⟩
        rw [hx, Option.or_none]

/-! ## Reachable states of the relational store -/

/-- One call of a mutating operation through `ProcessTransaction`: on any
error the SQL transaction was rolled back (duplicate check happens before
it even opens), so the store is unchanged. -/
def applyOp (st : Store) (p : ProcessTransactionParams) : Store :=
  match processTransaction st p with
  | .ok st' => st'
  | .error _ => st

/-- A sequence of mutating operations. -/
def applyOps (st : Store) (ops : List ProcessTransactionParams) : Store :=
  ops.foldl applyOp st

/-- A store with users and addresses provisioned but no balances and no
transactions (the state after `InitSchema` and user/address setup). -/
def initStore (users : List UserRow) (addrs : List AddressRow) : Store :=
  { users := users, addresses := addrs, balances := [], transactions := [], nextId := 0 }

/-- Invariant I1: no two transaction records share a non-empty
`external_transaction_id`. -/
def UniqueExternalIds (txs : List TxRow) : Prop :=
  txs.Pairwise (fun s t =>
    s.externalTransactionId = "" ∨ s.externalTransactionId ≠ t.externalTransactionId)

theorem applyOp_preserves_unique (st : Store) (p : ProcessTransactionParams)
    (hu : UniqueExternalIds st.transactions) : UniqueExternalIds (applyOp st p).transactions := by
  unfold applyOp
  cases hres : processTransaction st p with
  | error e => exact hu
  | ok st' =>
    obtain ⟨-, -, -, htx, hdup, -, -⟩ := processTransaction_ok_spec st p st' hres
    rw [htx]
    unfold UniqueExternalIds at hu ⊢
    rw [List.pairwise_append]
    refine ⟨hu, List.pairwise_singleton _ _, ?_⟩
    intro s hs t ht
    simp only [List.mem_singleton] at ht
    subst ht
    rcases hdup with hemp | hnotin
    · by_cases hs0 : s.externalTransactionId = ""
      · exact Or.inl hs0
      · refine Or.inr ?_
        show s.externalTransactionId ≠ p.externalTxId
        rw [hemp]
        exact hs0
    · exact Or.inr (hnotin s hs)

/-- Invariant I2 (relational): for every `(user, asset)` the stored balance
equals the signed sum of the amounts of its confirmed transaction rows. -/
def BalancesAgree (st : Store) : Prop :=
  ∀ u a, getBalance st u a = confirmedSum st.transactions u a

theorem confirmedSum_append_single (txs : List TxRow) (t : TxRow) (u a : String) :
    confirmedSum (txs ++ [t]) u a =
      confirmedSum txs u a +
        (if (t.userId == u && t.asset == a && t.status == "confirmed") = true then t.amount else 0) := by
  unfold confirmedSum
  rw [List.filter_append]
  by_cases h : (t.userId == u && t.asset == a && t.status == "confirmed") = true
  · rw [if_pos h]
    simp [List.filter_cons, h]
  · rw [if_neg h]
    simp only [Bool.not_eq_true] at h
    simp [List.filter_cons, h]

theorem applyOp_preserves_agree (st : Store) (p : ProcessTransactionParams)
    (hb : BalancesAgree st) : BalancesAgree (applyOp st p) := by
  unfold applyOp
  cases hres : processTransaction st p with
  | error e => exact hb
  | ok st' =>
    obtain ⟨-, -, -, htx, -, hself, hother⟩ := processTransaction_ok_spec st p st' hres
    intro u a
    rw [htx, confirmedSum_append_single]
    by_cases hmatch : u = p.userId ∧ a = p.asset
    · obtain ⟨hu, ha⟩ := hmatch
      subst hu
      subst ha
      rw [hself, hb p.userId p.asset]
      rw [if_pos (by simp [mkTxRow])]
      rfl
    · rw [hother u a hmatch, hb u a]
      rw [if_neg ?_]
      · rw [add_zero]
      · simp only [mkTxRow, Bool.and_eq_true, beq_iff_eq]
        rintro ⟨⟨h1, h2⟩, -⟩
        exact hmatch ⟨h1.symm, h2.symm⟩

theorem applyOps_preserves (ops : List ProcessTransactionParams) :
    ∀ st : Store, UniqueExternalIds st.transactions ∧ BalancesAgree st →
      UniqueExternalIds (applyOps st ops).transactions ∧ BalancesAgree (applyOps st ops) := by
  induction ops with
  | nil => exact fun st h => h
  | cons op rest ih =>
    intro st h
    show UniqueExternalIds (applyOps (applyOp st op) rest).transactions ∧
      BalancesAgree (applyOps (applyOp st op) rest)
    exact ih (applyOp st op)
      ⟨applyOp_preserves_unique st op h.1, applyOp_preserves_agree st op h.2⟩

theorem initStore_invariants (users : List UserRow) (addrs : List AddressRow) :
    UniqueExternalIds (initStore users addrs).transactions ∧ BalancesAgree (initStore users addrs) := by
  constructor
  · exact List.Pairwise.nil
  · intro u a
    rfl

/-! ## `database.Service` store operations (src/unnamed/part_003) -/

/-- `Service.ProcessWithdrawal` (src/unnamed/part_003 lines 251-290):
resolve the user (error if absent), read the balance for logging only, then
debit by recording a `"withdrawal"` transaction with the negated amount
under the given external id. -/
def serviceProcessWithdrawal (st : Store) (userId asset : String) (amount : ℚ)
    (transactionId : String) : Except GoError Store :=
  match getUserById st userId with
  | none => .error (.wrapf "error getting user: " (.msg ("user not found: " ++ userId)) "")
  | some user =>
    match processTransaction st
        { userId := user.id, asset := asset, transactionType := "withdrawal",
          amount := -amount, externalTxId := transactionId, address := "",
          reference := "" } with
    | .error e => .error (.wrapf "error processing withdrawal transaction: " e "")
    | .ok st' => .ok st'

/-- `Service.ReverseWithdrawal` (src/unnamed/part_003 lines 469-499): credit
the amount back as a `"deposit"` recorded under the derived external id
`originalTxId ++ "-reversal"`. -/
def serviceReverseWithdrawal (st : Store) (userId asset : String) (amount : ℚ)
    (originalTxId : String) : Except GoError Store :=
  let reversalTxId := originalTxId ++ "-reversal"
  match processTransaction st
      { userId := userId, asset := asset, transactionType := "deposit",
        amount := amount, externalTxId := reversalTxId, address := "",
        reference := "Reversal of failed withdrawal" } with
  | .error e => .error (.wrapf "error reversing withdrawal: " e "")
  | .ok st' => .ok st'

/-- `Service.ProcessDeposit` (src/unnamed/part_003 lines 203-248): resolve
the owning user by address (error if none), use the canonical symbol stored
on the address row, and credit via `ProcessTransaction`. -/
def serviceProcessDeposit (st : Store) (address asset : String) (amount : ℚ)
    (transactionId : String) : Except GoError Store :=
  match findUserByAddress st address with
  | none => .error (.msg ("no user found for address: " ++ address))
  | some (user, addr) =>
    match processTransaction st
        { userId := user.id, asset := addr.asset, transactionType := "deposit",
          amount := amount, externalTxId := transactionId, address := address,
          reference := "" } with
    | .error e => .error (.wrapf "error processing deposit transaction: " e "")
    | .ok st' => .ok st'

/-- `Service.ConfirmDeposit` (src/unnamed/part_003 lines 199-201): SQLite
delegates to `ProcessDeposit` (single-phase). -/
def serviceConfirmDeposit (st : Store) (address asset : String) (amount : ℚ)
    (transactionId : String) : Except GoError Store :=
  serviceProcessDeposit st address asset amount transactionId

/-- `Service.ProcessDepositPending` (src/unnamed/part_003 lines 194-196):
a no-op for SQLite. -/
def serviceProcessDepositPending (st : Store) : Except GoError Store :=
  .ok st

/-- `Service.ConfirmWithdrawal` (src/unnamed/part_003 lines 366-368):
a no-op for SQLite (the balance already moved at the W1 reserve). -/
def serviceConfirmWithdrawal (st : Store) : Except GoError Store :=
  .ok st

/-- `Service.HasPendingWithdrawal` (src/unnamed/part_003 lines 453-460):
true iff some transaction row carries the reference as its external id. -/
def serviceHasPendingWithdrawal (st : Store) (withdrawalRef : String) : Bool :=
  checkDuplicateTransaction st.transactions withdrawalRef

/-- `Service.RevertTransaction` (src/unnamed/part_003 lines 464-466): not
supported by the SQLite backend. -/
def serviceRevertTransaction : Except GoError Store :=
  .error (.msg "native revert not supported by SQLite backend")

/-- `store.WithdrawalFromWalletParams` (src/unnamed/part_009 lines 62-72),
restricted to the fields the SQLite backend reads. -/
structure WithdrawalFromWalletParams where
  transactionId : String
  status : String
  symbol : String
  amount : ℚ
  walletId : String
deriving DecidableEq, Repr

/-- `Service.ProcessWithdrawalFromWallet` (src/unnamed/part_003 lines
293-306): record the pending withdrawal against the `"prime-platform"`
user; a `store.ErrDuplicateTransaction` is swallowed (note: the SQLite
subledger raises the distinct `database.ErrDuplicateTransaction`, which
`errors.Is` does not identify with the store sentinel).
The formatted WITHDRAWAL_PENDING reference text carries the amount and
symbol; no claim reads it, so the format arguments are elided. -/
def serviceProcessWithdrawalFromWallet (st : Store) (p : WithdrawalFromWalletParams) :
    Except GoError Store :=
  match processTransaction st
      { userId := "prime-platform", asset := p.symbol, transactionType := "withdrawal",
        amount := -p.amount, externalTxId := p.transactionId, address := "",
        reference := "WITHDRAWAL_PENDING" } with
  | .error e =>
    if e.errorsIs .storeDuplicate then .ok st
    else .error (.wrapf "failed to record wallet withdrawal: " e "")
  | .ok st' => .ok st'

/-- `store.WithdrawalConfirmDirectParams` (src/unnamed/part_009 lines
91-103), restricted to the fields the SQLite backend reads. -/
structure WithdrawalConfirmDirectParams where
  userId : String
  asset : String
  amount : ℚ
  externalTxId : String
deriving DecidableEq, Repr

/-- `Service.ConfirmWithdrawalDirect` (src/unnamed/part_003 lines 348-360). -/
def serviceConfirmWithdrawalDirect (st : Store) (p : WithdrawalConfirmDirectParams) :
    Except GoError Store :=
  match processTransaction st
      { userId := p.userId, asset := p.asset, transactionType := "withdrawal",
        amount := -p.amount, externalTxId := p.externalTxId, address := "",
        reference := "" } with
  | .error e => if e.errorsIs .storeDuplicate then .ok st else .error e
  | .ok st' => .ok st'

/-- `store.FailedWithdrawalPlatformParams` (src/unnamed/part_009 lines
77-87), restricted to the fields the SQLite backend reads. -/
structure FailedWithdrawalPlatformParams where
  transactionId : String
  status : String
  symbol : String
  amount : ℚ
  walletId : String
deriving DecidableEq, Repr

/-- `Service.RecordFailedWithdrawalPlatform` (src/unnamed/part_003 lines
311-345): synthetic debit under the transaction id, then synthetic credit
under `transactionId ++ "-failed-reversal"`; store-sentinel duplicates are
tolerated at each step. The formatted FAILED_WITHDRAWAL reference texts are
elided as above. -/
def serviceRecordFailedWithdrawalPlatform (st : Store) (p : FailedWithdrawalPlatformParams) :
    Except GoError Store :=
  let step1 : Except GoError Store :=
    match processTransaction st
        { userId := "prime-platform", asset := p.symbol, transactionType := "withdrawal",
          amount := -p.amount, externalTxId := p.transactionId, address := "",
          reference := "FAILED_WITHDRAWAL" } with
    | .error e =>
      if e.errorsIs .storeDuplicate then .ok st
      else .error (.wrapf "failed to record failed withdrawal initiation: " e "")
    | .ok st' => .ok st'
  match step1 with
  | .error e => .error e
  | .ok st1 =>
    match processTransaction st1
        { userId := "prime-platform", asset := p.symbol, transactionType := "deposit",
          amount := p.amount, externalTxId := p.transactionId ++ "-failed-reversal",
          address := "", reference := "FAILED_WITHDRAWAL_REVERSAL" } with
    | .error e =>
      if e.errorsIs .storeDuplicate then .ok st1
      else .error (.wrapf "failed to record failed withdrawal reversal: " e "")
    | .ok st2 => .ok st2

/-! ## Progress and C6-specific lemmas -/

/-- Sequential progress: without a duplicate external id, a single
`ProcessTransaction` call (no interleaved writer) always commits: the
version it reads is the version the UPDATE sees. -/
theorem processTransaction_progress (st : Store) (p : ProcessTransactionParams)
    (h : ¬(p.externalTxId != "" && checkDuplicateTransaction st.transactions p.externalTxId) = true) :
    ∃ st', processTransaction st p = .ok st' := by
  cases hres : processTransaction st p with
  | ok st' => exact ⟨st', rfl⟩
  | error e =>
    exfalso
    unfold processTransaction at hres
    rw [if_neg h] at hres
    cases hfind : getAccountBalance st.balances p.userId p.asset with
    | some row =>
      simp only [hfind] at hres
      have haff := update_rowsAffected_ne_zero st.balances (row.balance + p.amount)
        st.nextId p.userId p.asset row hfind
      unfold optimisticCommit at hres
      rw [if_neg (by simpa using haff)] at hres
      exact absurd hres (by simp)
    | none =>
      simp only [hfind] at hres
      have hfresh := update_append_fresh st.balances (0 + p.amount) st.nextId
        p.userId p.asset hfind
      simp only [optimisticCommit, hfresh] at hres
      norm_num at hres
      exact Except.noConfusion hres

/-- The UNIQUE(user_id, asset) constraint of `account_balances`
(src/internal/database/subledger.go line 53). -/
def UniqueBalanceRows (rows : List BalanceRow) : Prop :=
  rows.Pairwise (fun r s => r.userId ≠ s.userId ∨ r.asset ≠ s.asset)

theorem unique_balance_match (rows : List BalanceRow) (u a : String) (r : BalanceRow)
    (huq : UniqueBalanceRows rows) (hfind : getAccountBalance rows u a = some r) :
    ∀ r' ∈ rows, r'.userId = u → r'.asset = a → r' = r := by
  unfold getAccountBalance at hfind
  induction rows with
  | nil => simp at hfind
  | cons hd tl ih =>
    rw [List.find?_cons] at hfind
    have hpw := (List.pairwise_cons.mp huq)
    by_cases hhd : (hd.userId == u && hd.asset == a) = true
    · rw [hhd] at hfind
      have hr : hd = r := by simpa using hfind
      intro r' hr' h1 h2
      rcases List.mem_cons.mp hr' with h | h
      · rw [h, hr]
      · exfalso
        simp only [Bool.and_eq_true, beq_iff_eq] at hhd
        rcases hpw.1 r' h with hne | hne
        · exact hne (hhd.1.trans h1.symm)
        · exact hne (hhd.2.trans h2.symm)
    · rw [Bool.not_eq_true] at hhd
      rw [hhd] at hfind
      intro r' hr' h1 h2
      rcases List.mem_cons.mp hr' with h | h
      · exfalso
        subst h
        simp [h1, h2] at hhd
      · exact ih hpw.2 hfind r' h h1 h2

/-- With a unique balance row per `(user, asset)`, an UPDATE keyed by a
stale read-time version matches no row: nothing is written and
`RowsAffected = 0`. -/
theorem update_version_mismatch (rows : List BalanceRow) (u a : String) (r : BalanceRow)
    (nb : ℚ) (tid : Nat) (vRead : Nat)
    (huq : UniqueBalanceRows rows) (hfind : getAccountBalance rows u a = some r)
    (hv : r.version ≠ vRead) :
    updateAccountBalance rows nb tid u a vRead = (rows, 0) := by
  have hmatch := unique_balance_match rows u a r huq hfind
  have hwfalse : ∀ x ∈ rows, updWhere u a vRead x = false := by
    intro x hx
    by_cases hxm : x.userId = u ∧ x.asset = a
    · have hxr := hmatch x hx hxm.1 hxm.2
      subst hxr
      unfold updWhere
      simp only [hxm.1, hxm.2, beq_self_eq_true, Bool.true_and]
      simpa using hv
    · unfold updWhere
      rcases not_and_or.mp hxm with h | h
      · have hb : (x.userId == u) = false := by simpa using h
        simp [hb]
      · have hb : (x.asset == a) = false := by simpa using h
        simp [hb]
  unfold updateAccountBalance
  simp only [Prod.mk.injEq]
  constructor
  · calc rows.map (updRow nb tid u a vRead)
        = rows.map id := List.map_congr_left (fun x hx => updRow_of_false nb tid (hwfalse x hx))
      _ = rows := List.map_id rows
  · rw [List.filter_eq_nil_iff.mpr]
    · rfl
    · intro x hx
      rw [hwfalse x hx]
      simp

/-! ## Claim C1 -/

/-- C1: every mutating relational-ledger operation funnels through
`ProcessTransaction`; called with a non-empty external transaction id that
already appears on a stored transaction record, it returns the wrapped
`ErrDuplicateTransaction` before performing any mutation (the caller's
store is unchanged: no transaction record is appended and no balance row
changes), and consequently every state reachable from an initialized store
by any sequence of operations satisfies invariant I1: no two transaction
records share the same non-empty external_transaction_id. -/
theorem c1_duplicate_rejected_and_external_ids_unique :
    (∀ (st : Store) (p : ProcessTransactionParams),
      p.externalTxId ≠ "" →
      (∃ t ∈ st.transactions, t.externalTransactionId = p.externalTxId) →
      processTransaction st p =
        .error (.wrapf "" .dbDuplicate
          (": external_transaction_id " ++ p.externalTxId ++ " already exists")) ∧
      applyOp st p = st) ∧
    ∀ (users : List UserRow) (addrs : List AddressRow) (ops : List ProcessTransactionParams),
      UniqueExternalIds (applyOps (initStore users addrs) ops).transactions := by
  constructor
  · intro st p hne hdup
    have hd := processTransaction_dup st p hne hdup
    refine ⟨hd, ?_⟩
    unfold applyOp
    rw [hd]
  · intro users addrs ops
    exact (applyOps_preserves ops (initStore users addrs) (initStore_invariants users addrs)).1

def c1WitnessTx : TxRow :=
  { id := 0, userId := "u1", asset := "BTC", transactionType := "deposit", amount := 1,
    balanceBefore := 0, balanceAfter := 1, externalTransactionId := "tx-1", address := "",
    reference := "", status := "confirmed" }

def c1WitnessStore : Store :=
  { users := [], addresses := [],
    balances := [{ userId := "u1", asset := "BTC", balance := 1,
                   lastTransactionId := some 0, version := 2 }],
    transactions := [c1WitnessTx], nextId := 1 }

def c1WitnessParams : ProcessTransactionParams :=
  { userId := "u1", asset := "BTC", transactionType := "deposit", amount := 1,
    externalTxId := "tx-1", address := "", reference := "" }

/-- C1 at a concrete input: replaying the external id `tx-1` is rejected
with the duplicate error and leaves the store unchanged, and a one-element
operation sequence from the empty store satisfies I1. -/
theorem c1_witness :
    (processTransaction c1WitnessStore c1WitnessParams =
        .error (.wrapf "" .dbDuplicate
          (": external_transaction_id " ++ "tx-1" ++ " already exists")) ∧
      applyOp c1WitnessStore c1WitnessParams = c1WitnessStore) ∧
    UniqueExternalIds (applyOps (initStore [] []) [c1WitnessParams]).transactions := by
  constructor
  · exact (c1_duplicate_rejected_and_external_ids_unique).1 c1WitnessStore c1WitnessParams
      (by decide) ⟨c1WitnessTx, by simp [c1WitnessStore], rfl⟩
  · exact (c1_duplicate_rejected_and_external_ids_unique).2 [] [] [c1WitnessParams]

/-! ## Claim C2 -/

/-- C2: from an empty (freshly initialized) store, after any sequence of
`ProcessTransaction` calls the stored balance of every `(user, asset)` pair
equals the signed sum of the amounts of the confirmed transaction records
for that pair (invariant I2); and each successful `ProcessTransaction` call
preserves this by setting the new balance to the read balance plus the
transaction's amount while appending exactly one record, with that amount
and status `'confirmed'`, to the journal. -/
theorem c2_balance_equals_confirmed_sum :
    (∀ (users : List UserRow) (addrs : List AddressRow) (ops : List ProcessTransactionParams)
        (u a : String),
      getBalance (applyOps (initStore users addrs) ops) u a =
        confirmedSum (applyOps (initStore users addrs) ops).transactions u a) ∧
    ∀ (st : Store) (p : ProcessTransactionParams) (st' : Store),
      processTransaction st p = .ok st' →
      getBalance st' p.userId p.asset = getBalance st p.userId p.asset + p.amount ∧
      st'.transactions = st.transactions ++
        [mkTxRow st.nextId p (getBalance st p.userId p.asset)
          (getBalance st p.userId p.asset + p.amount)] ∧
      (mkTxRow st.nextId p (getBalance st p.userId p.asset)
        (getBalance st p.userId p.asset + p.amount)).amount = p.amount ∧
      (mkTxRow st.nextId p (getBalance st p.userId p.asset)
        (getBalance st p.userId p.asset + p.amount)).status = "confirmed" := by
  constructor
  · intro users addrs ops u a
    exact (applyOps_preserves ops (initStore users addrs) (initStore_invariants users addrs)).2 u a
  · intro st p st' hok
    obtain ⟨-, -, -, htx, -, hself, -⟩ := processTransaction_ok_spec st p st' hok
    exact ⟨hself, htx, rfl, rfl⟩

def c2WitnessParams : ProcessTransactionParams :=
  { userId := "u1", asset := "BTC", transactionType := "deposit", amount := 2,
    externalTxId := "tx1", address := "addr1", reference := "" }

def c2WitnessEnd : Store :=
  { users := [], addresses := [],
    balances := [{ userId := "u1", asset := "BTC", balance := 2,
                   lastTransactionId := some 0, version := 2 }],
    transactions := [{ id := 0, userId := "u1", asset := "BTC", transactionType := "deposit",
                       amount := 2, balanceBefore := 0, balanceAfter := 2,
                       externalTransactionId := "tx1", address := "addr1",
                       reference := "", status := "confirmed" }],
    nextId := 1 }

/-- C2 at a concrete input: one deposit of 2 BTC from the empty store. -/
theorem c2_witness :
    getBalance (applyOps (initStore [] []) [c2WitnessParams]) "u1" "BTC" =
      confirmedSum (applyOps (initStore [] []) [c2WitnessParams]).transactions "u1" "BTC" ∧
    getBalance c2WitnessEnd "u1" "BTC" = getBalance (initStore [] []) "u1" "BTC" + 2 := by
  constructor
  · exact (c2_balance_equals_confirmed_sum).1 [] [] [c2WitnessParams] "u1" "BTC"
  · exact ((c2_balance_equals_confirmed_sum).2 (initStore [] []) c2WitnessParams c2WitnessEnd
      (by norm_num [processTransaction, checkDuplicateTransaction, getAccountBalance,
        updRow, updWhere, optimisticCommit, updateAccountBalance, mkTxRow, initStore,
        c2WitnessParams, c2WitnessEnd])).1

/-! ## Claim C6 -/

/-- C6: the balance-row UPDATE of a mutating relational operation commits
only when the row's version at update time equals the version read at the
start of the operation; on a match the row gets the new balance and an
incremented version, and on a mismatch the operation fails with the wrapped
`ErrConcurrentModification` while the UPDATE touched no row at all, so the
balance row retains its prior value (and the enclosing SQL transaction of
`ProcessTransaction` rolls back). -/
theorem c6_version_check_guards_balance_update :
    ∀ (rows : List BalanceRow) (u a : String) (r : BalanceRow) (nb : ℚ) (tid : Nat)
      (vRead : Nat),
      UniqueBalanceRows rows →
      getAccountBalance rows u a = some r →
      (r.version = vRead →
        optimisticCommit rows nb tid u a vRead =
          .ok (updateAccountBalance rows nb tid u a vRead).1 ∧
        getAccountBalance (updateAccountBalance rows nb tid u a vRead).1 u a =
          some { r with
                   balance := nb, lastTransactionId := some tid,
                   version := r.version + 1 }) ∧
      (r.version ≠ vRead →
        optimisticCommit rows nb tid u a vRead =
          .error (.wrapf "balance update failed - " .dbConcurrent "") ∧
        (updateAccountBalance rows nb tid u a vRead).1 = rows) := by
  intro rows u a r nb tid vRead huq hfind
  constructor
  · intro hv
    subst hv
    have haff := update_rowsAffected_ne_zero rows nb tid u a r hfind
    constructor
    · unfold optimisticCommit
      rw [if_neg (by simpa using haff)]
    · exact getAccountBalance_update_self rows nb tid u a r hfind
  · intro hv
    have hmm := update_version_mismatch rows u a r nb tid vRead huq hfind hv
    constructor
    · unfold optimisticCommit
      rw [hmm]
      norm_num
    · rw [hmm]

def c6WitnessRow : BalanceRow :=
  { userId := "u1", asset := "BTC", balance := 7, lastTransactionId := some 4, version := 3 }

/-- C6 at a concrete input: with the stored row at version 3, an UPDATE
keyed by read version 3 commits the new balance, while an UPDATE keyed by
the stale read version 2 fails with `ErrConcurrentModification` and leaves
the table unchanged. -/
theorem c6_witness :
    (optimisticCommit [c6WitnessRow] 5 9 "u1" "BTC" 3 =
        .ok (updateAccountBalance [c6WitnessRow] 5 9 "u1" "BTC" 3).1 ∧
      getAccountBalance (updateAccountBalance [c6WitnessRow] 5 9 "u1" "BTC" 3).1 "u1" "BTC" =
        some { c6WitnessRow with
                 balance := 5, lastTransactionId := some 9,
                 version := c6WitnessRow.version + 1 }) ∧
    (optimisticCommit [c6WitnessRow] 5 9 "u1" "BTC" 2 =
        .error (.wrapf "balance update failed - " .dbConcurrent "") ∧
      (updateAccountBalance [c6WitnessRow] 5 9 "u1" "BTC" 2).1 = [c6WitnessRow]) := by
  constructor
  · exact (c6_version_check_guards_balance_update [c6WitnessRow] "u1" "BTC" c6WitnessRow
      5 9 3 (List.pairwise_singleton _ _) (by decide)).1 rfl
  · exact (c6_version_check_guards_balance_update [c6WitnessRow] "u1" "BTC" c6WitnessRow
      5 9 2 (List.pairwise_singleton _ _) (by decide)).2 (by decide)

/-! ## Claim C9 -/

/-- The `(external_transaction_id, created_at)` projection of a
`transactions` row, the data `queryGetMostRecentTransactionTime` reads
(src/internal/database/queries.go lines 120-123). Times are seconds. -/
structure TxTimeRow where
  externalTransactionId : String
  createdAt : Int
deriving DecidableEq, Repr

/-- `SubledgerService.GetMostRecentTransactionTime`
(src/internal/database/balances_test.go, second document, lines 425-456):
`SELECT MAX(created_at) FROM transactions WHERE external_transaction_id IS
NOT NULL AND external_transaction_id != ''`; a NULL or empty result means
no transactions yet, in which case the function returns `time.Now()` minus
2 hours (7200 seconds). A non-NULL stored timestamp parses back to itself
(SQLite stores well-formed timestamps; the parse-format fallback chain is
collapsed to the identity). -/
def sqliteGetMostRecentTransactionTime (rows : List TxTimeRow) (now : Int) :
    Except GoError Int :=
  match ((rows.filter (fun r => r.externalTransactionId != "")).map
      (fun r => r.createdAt)).max? with
  | none => .ok (now - 7200)
  | some t => .ok t

/-- `formance.Service.GetMostRecentTransactionTime` (src/unnamed/part_007
lines 1213-1226): list one page of ledger transactions (page size 1,
newest first); an empty page returns `time.Now()` minus 2 hours, otherwise
the first transaction's timestamp. -/
def formanceGetMostRecentTransactionTime (page : List Int) (now : Int) :
    Except GoError Int :=
  match page with
  | [] => .ok (now - 7200)
  | t :: _ => .ok t

/-- C9: when the store contains no transaction records,
`GetMostRecentTransactionTime` does not fail on either backend: both
return the current time minus 2 hours (7200 seconds). Neither function
takes the configured lookback window as an input, so the default is
independent of it. -/
theorem c9_empty_store_default_two_hours :
    ∀ now : Int,
      sqliteGetMostRecentTransactionTime [] now = .ok (now - 7200) ∧
      formanceGetMostRecentTransactionTime [] now = .ok (now - 7200) :=
  fun _ => ⟨rfl, rfl⟩

/-! ## Claim C3 -/

/-- C3: on the relational backend, for every user, asset, amount > 0 and
key `k`, a successful `ProcessWithdrawal(u, a, amt, k)` followed by a
successful `ReverseWithdrawal(u, a, amt, k)` leaves `balance(u, a)` at its
value before the `ProcessWithdrawal`; the reversal is recorded as a
deposit of the amount under the derived external id `k ++ "-reversal"`
(the compensating path the Withdrawal Coordinator's rollback runs when
Exchange submission fails after the reserve and native revert is
unsupported). The hypotheses are what successful calls need: the user
exists and neither `k` nor `k ++ "-reversal"` is already recorded. -/
theorem c3_withdraw_then_reverse_restores_balance :
    ∀ (st : Store) (u asset : String) (amt : ℚ) (k : String),
      0 < amt →
      (getUserById st u).isSome = true →
      (∀ t ∈ st.transactions, t.externalTransactionId ≠ k) →
      (∀ t ∈ st.transactions, t.externalTransactionId ≠ k ++ "-reversal") →
      ∃ st1 st2,
        serviceProcessWithdrawal st u asset amt k = .ok st1 ∧
        serviceReverseWithdrawal st1 u asset amt k = .ok st2 ∧
        getBalance st2 u asset = getBalance st u asset ∧
        ∃ t ∈ st2.transactions, t.externalTransactionId = k ++ "-reversal" ∧
          t.transactionType = "deposit" ∧ t.amount = amt := by
  intro st u asset amt k hamt huser hk1 hk2
  obtain ⟨user, huser'⟩ := Option.isSome_iff_exists.mp huser
  have huid : user.id = u := by
    unfold getUserById at huser'
    have := List.find?_some huser'
    simp only [Bool.and_eq_true, beq_iff_eq] at this
    exact this.1
  have hnd1 : ¬(k != "" && checkDuplicateTransaction st.transactions k) = true := by
    intro hcond
    rw [Bool.and_eq_true] at hcond
    have h2 := hcond.2
    unfold checkDuplicateTransaction at h2
    rw [List.any_eq_true] at h2
    obtain ⟨t, ht, he⟩ := h2
    exact hk1 t ht (by simpa using he)
  obtain ⟨st1, hok1⟩ := processTransaction_progress st
    { userId := user.id, asset := asset, transactionType := "withdrawal", amount := -amt,
      externalTxId := k, address := "", reference := "" } hnd1
  obtain ⟨-, -, -, htx1, -, hself1, -⟩ := processTransaction_ok_spec st
    { userId := user.id, asset := asset, transactionType := "withdrawal", amount := -amt,
      externalTxId := k, address := "", reference := "" } st1 hok1
  rw [huid] at hself1
  have hnd2 : ¬((k ++ "-reversal") != "" &&
      checkDuplicateTransaction st1.transactions (k ++ "-reversal")) = true := by
    intro hcond
    rw [Bool.and_eq_true] at hcond
    have h2 := hcond.2
    unfold checkDuplicateTransaction at h2
    rw [List.any_eq_true] at h2
    obtain ⟨t, ht, he⟩ := h2
    rw [htx1] at ht
    rcases List.mem_append.mp ht with hold | hnew
    · exact hk2 t hold (by simpa using he)
    · simp only [List.mem_singleton] at hnew
      subst hnew
      have hkk : k = k ++ "-reversal" := by simpa [mkTxRow] using he
      have hlen := congrArg String.length hkk
      rw [String.length_append] at hlen
      have h9 : ("-reversal" : String).length = 9 := rfl
      omega
  obtain ⟨st2, hok2⟩ := processTransaction_progress st1
    { userId := u, asset := asset, transactionType := "deposit", amount := amt,
      externalTxId := k ++ "-reversal", address := "",
      reference := "Reversal of failed withdrawal" } hnd2
  obtain ⟨-, -, -, htx2, -, hself2, -⟩ := processTransaction_ok_spec st1
    { userId := u, asset := asset, transactionType := "deposit", amount := amt,
      externalTxId := k ++ "-reversal", address := "",
      reference := "Reversal of failed withdrawal" } st2 hok2
  refine ⟨st1, st2, ?_, ?_, ?_, ?_⟩
  · unfold serviceProcessWithdrawal
    simp only [huser', hok1]
  · unfold serviceReverseWithdrawal
    simp only [hok2]
  · rw [hself2, hself1]
    ring
  · refine ⟨mkTxRow st1.nextId
      { userId := u, asset := asset, transactionType := "deposit", amount := amt,
        externalTxId := k ++ "-reversal", address := "",
        reference := "Reversal of failed withdrawal" }
      (getBalance st1 u asset) (getBalance st1 u asset + amt), ?_, rfl, rfl, rfl⟩
    rw [htx2]
    simp

def c3WitnessStore : Store :=
  { users := [{ id := "alice", name := "Alice", email := "alice@example.com", active := true }],
    addresses := [],
    balances := [{ userId := "alice", asset := "USDC", balance := 5,
                   lastTransactionId := none, version := 1 }],
    transactions := [], nextId := 0 }

/-- C3 at a concrete input: Alice holds 5 USDC; withdraw 2 under key
`key-1`, then reverse; the balance is back at its pre-withdrawal value and
the reversal is recorded under `key-1-reversal`. -/
theorem c3_witness :
    0 < (2 : ℚ) ∧
    ∃ st1 st2,
      serviceProcessWithdrawal c3WitnessStore "alice" "USDC" 2 "key-1" = .ok st1 ∧
      serviceReverseWithdrawal st1 "alice" "USDC" 2 "key-1" = .ok st2 ∧
      getBalance st2 "alice" "USDC" = getBalance c3WitnessStore "alice" "USDC" ∧
      ∃ t ∈ st2.transactions, t.externalTransactionId = "key-1" ++ "-reversal" ∧
        t.transactionType = "deposit" ∧ t.amount = 2 := by
  refine ⟨by norm_num, ?_⟩
  exact c3_withdraw_then_reverse_restores_balance c3WitnessStore "alice" "USDC" 2 "key-1"
    (by norm_num) (by decide) (by simp [c3WitnessStore]) (by simp [c3WitnessStore])

/-! ## Withdrawal coordinator balance verification (src/cmd/withdrawal/main.go) -/

/-- One row of `GetAllUserBalances` as `verifyBalance` reads it
(`models.AccountBalance`, fields `Asset`, `Network`, `Balance`; the
`Network` field is empty for relational rows and per-network for the
double-entry backend). -/
structure UserBalanceRow where
  asset : String
  network : String
  balance : ℚ
deriving DecidableEq, Repr

/-- The scanning loop of `verifyBalance` (src/cmd/withdrawal/main.go lines
96-105): `networkBalance` starts at the sentinel -1 and is overwritten by
the balance of each row matching `(symbol, network)` (last match wins);
`totalBalance` accumulates every row matching the symbol. Returns
`(networkBalance, totalBalance)`. -/
def verifyBalanceScan (balances : List UserBalanceRow) (symbol network : String) : ℚ × ℚ :=
  balances.foldl (fun acc b =>
    if b.asset == symbol then
      ((if b.network == network then b.balance else acc.1), acc.2 + b.balance)
    else acc) (-1, 0)

/-- Lines 107-111: use the network-specific balance only when it is
greater than or equal to zero, otherwise the aggregated balance. -/
def checkedBalance (balances : List UserBalanceRow) (symbol network : String) : ℚ :=
  let s := verifyBalanceScan balances symbol network
  if s.1 ≥ 0 then s.1 else s.2

/-- `verifyBalance` (src/cmd/withdrawal/main.go lines 88-126): fail with
the insufficient-balance error iff the checked balance is strictly less
than the requested amount, else return the checked balance. The formatted
error text carries the amounts; no claim reads it, so the format arguments
are elided. -/
def verifyBalance (balances : List UserBalanceRow) (symbol network : String)
    (amount : ℚ) : Except String ℚ :=
  let cb := checkedBalance balances symbol network
  if cb < amount then .error "insufficient balance" else .ok cb

/-- The checked balance in the words of claim C7: "the per-network balance
if the backend reports one, otherwise the aggregated cross-network balance
for the symbol". Written from the claim, to be compared with
`checkedBalance` from the source; the last matching row wins, as in the
source's loop. -/
def specCheckedBalance (balances : List UserBalanceRow) (symbol network : String) : ℚ :=
  match (balances.filter (fun b => b.asset == symbol && b.network == network)).getLast? with
  | some b => b.balance
  | none => ((balances.filter (fun b => b.asset == symbol)).map (fun b => b.balance)).sum

/-! ## Claim C7 -/

def c7Balances : List UserBalanceRow :=
  [ { asset := "USDC", network := "base-mainnet", balance := -1 },
    { asset := "USDC", network := "eth-mainnet", balance := 10 } ]

/-- C7 counterexample: the backend reports a per-network balance of -1 for
`(USDC, base-mainnet)` (so the claim's checked balance is -1, strictly
less than the requested 5, and the claim says verification must fail with
the insufficient-balance error), yet `verifyBalance` ignores the negative
per-network row, falls back to the aggregate 9, and succeeds. -/
theorem c7_counterexample :
    specCheckedBalance c7Balances "USDC" "base-mainnet" = -1 ∧
    ((-1 : ℚ) < 5) ∧
    verifyBalance c7Balances "USDC" "base-mainnet" 5 = .ok 9 := by
  refine ⟨?_, by norm_num, ?_⟩ <;>
    · norm_num [specCheckedBalance, c7Balances, verifyBalance, checkedBalance, verifyBalanceScan]
      decide

/-- C7 amended: with the checked balance as the code computes it (the
per-network balance only when the backend reports one with non-negative
balance, otherwise the aggregated cross-network balance), the Withdrawal
Coordinator's balance verification succeeds exactly when the checked
balance is greater than or equal to the requested amount and fails with
the insufficient-balance error exactly when it is strictly less; in
particular a withdrawal of exactly the checked balance passes and any
strictly larger amount fails. -/
theorem c7_amended_verification_iff_checked_balance :
    ∀ (balances : List UserBalanceRow) (symbol network : String) (amount : ℚ),
      (verifyBalance balances symbol network amount =
          .ok (checkedBalance balances symbol network) ↔
        checkedBalance balances symbol network ≥ amount) ∧
      (verifyBalance balances symbol network amount = .error "insufficient balance" ↔
        checkedBalance balances symbol network < amount) ∧
      verifyBalance balances symbol network (checkedBalance balances symbol network) =
        .ok (checkedBalance balances symbol network) ∧
      ∀ amt2 : ℚ, checkedBalance balances symbol network < amt2 →
        verifyBalance balances symbol network amt2 = .error "insufficient balance" := by
  intro balances symbol network amount
  have hmain : ∀ amt : ℚ, verifyBalance balances symbol network amt =
      if checkedBalance balances symbol network < amt then .error "insufficient balance"
      else .ok (checkedBalance balances symbol network) := fun amt => rfl
  refine ⟨?_, ?_, ?_, ?_⟩
  · rw [hmain]
    by_cases h : checkedBalance balances symbol network < amount
    · rw [if_pos h]
      simp only [ge_iff_le]
      constructor
      · intro he
        exact absurd he (by simp)
      · intro hge
        exact absurd h (not_lt.mpr hge)
    · rw [if_neg h]
      simp only [ge_iff_le]
      constructor
      · intro _
        exact not_lt.mp h
      · intro _
        trivial
  · rw [hmain]
    by_cases h : checkedBalance balances symbol network < amount
    · rw [if_pos h]
      exact ⟨fun _ => h, fun _ => rfl⟩
    · rw [if_neg h]
      constructor
      · intro he
        exact absurd he (by simp)
      · intro hlt
        exact absurd hlt h
  · rw [hmain, if_neg (lt_irrefl _)]
  · intro amt2 h2
    rw [hmain, if_pos h2]

/-- C7 amended, at a concrete input: 9 available, withdrawing exactly 9
passes and withdrawing 10 fails. -/
theorem c7_amended_witness :
    verifyBalance c7Balances "USDC" "base-mainnet"
        (checkedBalance c7Balances "USDC" "base-mainnet") =
      .ok (checkedBalance c7Balances "USDC" "base-mainnet") ∧
    verifyBalance c7Balances "USDC" "base-mainnet" 10 = .error "insufficient balance" := by
  constructor
  · exact (c7_amended_verification_iff_checked_balance c7Balances "USDC" "base-mainnet" 0).2.2.1
  · exact (c7_amended_verification_iff_checked_balance c7Balances "USDC" "base-mainnet" 0).2.2.2
      10 (by norm_num [checkedBalance, verifyBalanceScan, c7Balances]; decide)

/-! ## Claim C10 -/

def c10Balances : List UserBalanceRow :=
  [ { asset := "USDC", network := "base-mainnet", balance := -2 },
    { asset := "USDC", network := "eth-mainnet", balance := 11 } ]

/-- C10: in `verifyBalance` the not-found sentinel for the per-network
balance is -1 and the per-network value is used only when it is greater
than or equal to zero, so a negative per-network row is treated the same
as no per-network row at all: the check silently falls back to the
aggregated cross-network balance, which can let a withdrawal pass despite
the negative per-network balance. -/
theorem c10_negative_network_balance_falls_back :
    (∀ symbol network : String, (verifyBalanceScan [] symbol network).1 = -1) ∧
    (∀ (balances : List UserBalanceRow) (symbol network : String) (amount : ℚ),
      (verifyBalanceScan balances symbol network).1 < 0 →
      verifyBalance balances symbol network amount =
        (if (verifyBalanceScan balances symbol network).2 < amount then
          .error "insufficient balance"
         else .ok (verifyBalanceScan balances symbol network).2)) ∧
    ((verifyBalanceScan c10Balances "USDC" "base-mainnet").1 = -2 ∧
      (-2 : ℚ) < 0 ∧
      verifyBalance c10Balances "USDC" "base-mainnet" 5 = .ok 9) := by
  refine ⟨fun _ _ => rfl, ?_, ?_⟩
  · intro balances symbol network amount h
    unfold verifyBalance checkedBalance
    rw [if_neg (not_le.mpr h)]
  · refine ⟨?_, by norm_num, ?_⟩ <;>
      · norm_num [verifyBalance, checkedBalance, verifyBalanceScan, c10Balances]
        decide

/-- C10 at a concrete input: with the per-network balance -2, the check
uses the aggregate. -/
theorem c10_witness :
    verifyBalance c10Balances "USDC" "base-mainnet" 7 =
      (if (verifyBalanceScan c10Balances "USDC" "base-mainnet").2 < 7 then
        .error "insufficient balance"
       else .ok (verifyBalanceScan c10Balances "USDC" "base-mainnet").2) :=
  (c10_negative_network_balance_falls_back).2.1 c10Balances "USDC" "base-mainnet" 7
    (by norm_num [verifyBalanceScan, c10Balances]; decide)

/-! ## Idempotency key generation and matching (C8)

Go strings are embedded as `List Char` here so that `strings.Split` on
`"-"` can be reasoned about directly. -/

/-- `strings.Split(s, "-")` for a one-character separator: Go's split
always returns at least one (possibly empty) segment. -/
def splitDashL : List Char → List (List Char)
  | [] => [[]]
  | c :: cs =>
    if c = '-' then [] :: splitDashL cs
    else
      match splitDashL cs with
      | [] => [[c]]
      | h :: t => (c :: h) :: t

/-- `segments[0]`: the first hyphen-delimited segment (`splitDashL` never
returns an empty list, so the default is never taken). -/
def firstSegL (l : List Char) : List Char :=
  (splitDashL l).headD []

/-- `strings.Join(xs, "-")`. -/
def joinDashL : List (List Char) → List Char
  | [] => []
  | [x] => x
  | x :: xs => x ++ '-' :: joinDashL xs

/-- `generateIdempotencyKey` (src/cmd/withdrawal/main.go lines 141-145):
`userIdSegments[0] + "-" + strings.Join(uuidSegments[1:], "-")`, where
`uuidStr` is the random `uuid.New().String()` (passed as a parameter:
only its shape matters). -/
def generateIdempotencyKey (userId uuidStr : List Char) : List Char :=
  firstSegL userId ++ '-' :: joinDashL ((splitDashL uuidStr).drop 1)

/-- `SendReceiveListener.findUserByIdempotencyKeyPrefix`
(src/internal/listener/common.go lines 268-299) over the ids `GetUsers`
returned: reject an empty key, split the key on `-`, and return the first
user id whose first segment equals the key's first segment. -/
def findUserByIdempotencyKeyPfx (users : List (List Char)) (key : List Char) :
    Except String (List Char) :=
  if key = [] then .error "empty idempotency key"
  else
    match splitDashL key with
    | [] => .error "invalid idempotency key format"
    | p :: _ =>
      match users.find? (fun uid => firstSegL uid == p) with
      | some uid => .ok uid
      | none => .error "no user found with UUID prefix matching idempotency key prefix"

theorem splitDashL_ne_nil : ∀ l : List Char, splitDashL l ≠ [] := by
  intro l
  cases l with
  | nil => simp [splitDashL]
  | cons c cs =>
    unfold splitDashL
    by_cases h : c = '-'
    · simp [h]
    · rw [if_neg h]
      cases splitDashL cs <;> simp

theorem dash_not_mem_firstSegL : ∀ l : List Char, '-' ∉ firstSegL l := by
  intro l
  induction l with
  | nil => simp [firstSegL, splitDashL]
  | cons c cs ih =>
    unfold firstSegL splitDashL
    by_cases h : c = '-'
    · simp [h]
    · rw [if_neg h]
      cases hs : splitDashL cs with
      | nil => exact absurd hs (splitDashL_ne_nil cs)
      | cons hd tl =>
        unfold firstSegL at ih
        rw [hs] at ih
        simp only [List.headD_cons] at ih
        simp [ih, Ne.symm h]

theorem firstSegL_append_dash (a b : List Char) (ha : '-' ∉ a) :
    firstSegL (a ++ '-' :: b) = a := by
  induction a with
  | nil => simp [firstSegL, splitDashL]
  | cons c a' ih =>
    have hc : c ≠ '-' := by
      intro hcc
      exact ha (by simp [hcc])
    have ha' : '-' ∉ a' := fun hm => ha (List.mem_cons_of_mem _ hm)
    have hrec := ih ha'
    rw [List.cons_append]
    unfold firstSegL splitDashL
    rw [if_neg hc]
    cases hs : splitDashL (a' ++ '-' :: b) with
    | nil => exact absurd hs (splitDashL_ne_nil _)
    | cons hd tl =>
      unfold firstSegL at hrec
      rw [hs] at hrec
      simp only [List.headD_cons] at hrec
      simp [hrec]

theorem find?_of_unique_firstSeg (users : List (List Char)) (u p : List Char)
    (hmem : u ∈ users) (hu : firstSegL u = p)
    (huniq : ∀ u' ∈ users, firstSegL u' = p → u' = u) :
    users.find? (fun uid => firstSegL uid == p) = some u := by
  induction users with
  | nil => simp at hmem
  | cons hd tl ih =>
    rw [List.find?_cons]
    by_cases hhd : (firstSegL hd == p) = true
    · rw [hhd]
      have := huniq hd (List.mem_cons_self hd tl) (by simpa using hhd)
      rw [this]
    · rw [Bool.not_eq_true] at hhd
      rw [hhd]
      have hne : u ≠ hd := by
        intro he
        rw [he] at hu
        simp [hu] at hhd
      rcases List.mem_cons.mp hmem with h | h
      · exact absurd h hne
      · exact ih h (fun u' hu' hp => huniq u' (List.mem_cons_of_mem _ hu') hp)

/-- C8: the key produced by `generateIdempotencyKey` has the user id's
first hyphen-delimited segment as its own first segment (every Go string
has at least one hyphen-delimited segment, so the claim's guard is always
met); and whenever the user store holds exactly one user id whose first
segment equals that of the key, `findUserByIdempotencyKeyPrefix` applied
to the key returns that user's id: the prefix round-trips from generation
to reconciler matching. -/
theorem c8_idempotency_key_prefix_roundtrip :
    ∀ (userId uuidStr : List Char) (users : List (List Char)) (u : List Char),
      u ∈ users →
      firstSegL u = firstSegL userId →
      (∀ u' ∈ users, firstSegL u' = firstSegL userId → u' = u) →
      firstSegL (generateIdempotencyKey userId uuidStr) = firstSegL userId ∧
      findUserByIdempotencyKeyPfx users (generateIdempotencyKey userId uuidStr) = .ok u := by
  intro userId uuidStr users u hmem hu huniq
  have hkeyseg : firstSegL (generateIdempotencyKey userId uuidStr) = firstSegL userId := by
    unfold generateIdempotencyKey
    exact firstSegL_append_dash _ _ (dash_not_mem_firstSegL userId)
  refine ⟨hkeyseg, ?_⟩
  unfold findUserByIdempotencyKeyPfx
  have hne : generateIdempotencyKey userId uuidStr ≠ [] := by
    unfold generateIdempotencyKey
    cases hfs : firstSegL userId <;> simp
  rw [if_neg hne]
  cases hsp : splitDashL (generateIdempotencyKey userId uuidStr) with
  | nil => exact absurd hsp (splitDashL_ne_nil _)
  | cons p rest =>
    have hp : p = firstSegL userId := by
      rw [← hkeyseg]
      unfold firstSegL
      rw [hsp]
      rfl
    subst hp
    have hfind := find?_of_unique_firstSeg users u (firstSegL userId) hmem hu huniq
    simp only [hfind]

/-- C8 at a concrete input: user id `alice-42`, random UUID
`00000000-aaaa-bbbb`; the key's first segment is `alice` and the
reconciler resolves the key back to `alice-42`. -/
theorem c8_witness :
    firstSegL (generateIdempotencyKey ("alice-42".toList) ("00000000-aaaa-bbbb".toList)) =
      firstSegL ("alice-42".toList) ∧
    findUserByIdempotencyKeyPfx ["bob-7".toList, "alice-42".toList]
        (generateIdempotencyKey ("alice-42".toList) ("00000000-aaaa-bbbb".toList)) =
      .ok ("alice-42".toList) :=
  c8_idempotency_key_prefix_roundtrip ("alice-42".toList) ("00000000-aaaa-bbbb".toList)
    ["bob-7".toList, "alice-42".toList] ("alice-42".toList)
    (by decide) (by decide) (by decide)

/-! ## Listener-side embedding (src/unnamed/part_006, src/internal/listener/deposit.go)

Listener handlers return a Go `error` and leave the store behind them, so
they are embedded as `Option GoError × Store` pairs: `(none, st')` is a
`nil` return with resulting state `st'`. Time-typed fields and
metadata-only fields (fees, blockchain ids, transfer types) feed only log
lines or the elided Formance metadata and are omitted. -/

/-- `models.PrimeTransaction` (src/internal/models/api.go), restricted to
the fields the withdrawal/deposit handlers read; `amount` holds the result
of `decimal.NewFromString(tx.Amount)` (`none` = parse error). -/
structure PrimeTransaction where
  id : String
  transactionId : String
  status : String
  symbol : String
  amount : Option ℚ
  network : String
  idempotencyKey : String
  transferToAddress : String
  transferToValue : String
  transferToAccountIdentifier : String
deriving DecidableEq, Repr

/-- `models.WalletInfo`, restricted to the `Id` the handlers read. -/
structure WalletInfo where
  id : String
deriving DecidableEq, Repr

/-- `symbolMapping` + `normalizeSymbol` (src/unnamed/part_006 lines
437-455): Prime network-specific symbols map to canonical ones. -/
def normalizeSymbol (symbol : String) : String :=
  if symbol = "USDC" then "USDC"
  else if symbol = "SPLUSDC" then "USDC"
  else if symbol = "AVAUSDC" then "USDC"
  else if symbol = "ARBUSDC" then "USDC"
  else if symbol = "BASEUSDC" then "USDC"
  else if symbol = "ETH" then "ETH"
  else if symbol = "BASEETH" then "ETH"
  else symbol

/-- The `terminalFailures` set of `processWithdrawal`
(src/unnamed/part_006 lines 36-41). -/
def terminalFailures (status : String) : Bool :=
  status = "TRANSACTION_CANCELLED" || status = "TRANSACTION_REJECTED" ||
  status = "TRANSACTION_FAILED" || status = "TRANSACTION_EXPIRED"

/-- The inline destination-address resolution of the withdrawal handlers
(src/unnamed/part_006 lines 86-92 and 202-208): `TransferTo.Address`, else
`TransferTo.Value`, else `TransferTo.AccountIdentifier`. -/
def resolveDestAddr (tx : PrimeTransaction) : String :=
  if tx.transferToAddress != "" then tx.transferToAddress
  else if tx.transferToValue != "" then tx.transferToValue
  else tx.transferToAccountIdentifier

/-- `strings.Contains`: `sub` occurs inside `s` (splitting on a non-empty
occurring substring yields more than one part). -/
def goStringsContains (s sub : String) : Bool :=
  sub = "" || (s.splitOn sub).length > 1

/-- `SendReceiveListener.findUserByIdempotencyKeyPrefix`
(src/internal/listener/common.go lines 268-299) over the relational store:
the active users of `GetUsers`, matched on the first hyphen-delimited
segment of their id against the key's first segment. -/
def findUserByIdemKeyPfxStore (st : Store) (key : String) : Except GoError String :=
  if key = "" then .error (.msg "empty idempotency key")
  else
    match splitDashL key.toList with
    | [] => .error (.msg ("invalid idempotency key format: " ++ key))
    | p :: _ =>
      match (getUsers st).find? (fun u => firstSegL u.id.toList == p) with
      | some u => .ok u.id
      | none => .error (.msg "no user found with UUID prefix matching idempotency key prefix")

/-- `models.DepositResult` (src/internal/models/api.go), restricted to the
`Success` and `Error` fields the listener branches on. -/
structure DepositResult where
  success : Bool
  error : String
deriving DecidableEq, Repr

/-- `LedgerService.ProcessDeposit` (src/unnamed/part_009, second document,
lines 176-256): validate, run the store deposit, and fold any failure into
the `DepositResult.Error` string (the Go `error` return is always `nil`).
`GetUserBalance` cannot fail in the relational embedding, so the
balance-refresh fallback to zero only affects the elided `NewBalance`. -/
def apiProcessDeposit (st : Store) (address asset : String) (amount : ℚ)
    (externalTxId : String) : DepositResult × Store :=
  if address = "" || asset = "" || amount ≤ 0 || externalTxId = "" then
    ({ success := false, error := "invalid deposit parameters" }, st)
  else
    match serviceProcessDeposit st address asset amount externalTxId with
    | .error e => ({ success := false, error := e.render }, st)
    | .ok st' =>
      match findUserByAddress st' address with
      | none => ({ success := false, error := "user lookup failed after deposit" }, st')
      | some _ => ({ success := true, error := "" }, st')

/-- `LedgerService.CreditBackFailedWithdrawal` (src/internal/api/withdrawals.go
lines 133-194): validate, reverse the withdrawal, fold failures into the
result string. -/
def apiCreditBackFailedWithdrawal (st : Store) (userId asset : String) (amount : ℚ)
    (originalTxId : String) : DepositResult × Store :=
  if userId = "" || asset = "" || amount ≤ 0 || originalTxId = "" then
    ({ success := false, error := "invalid credit-back parameters" }, st)
  else
    match serviceReverseWithdrawal st userId asset amount originalTxId with
    | .error e => ({ success := false, error := e.render }, st)
    | .ok st' => ({ success := true, error := "" }, st')

/-- `LedgerService.ConfirmWithdrawal` (src/internal/api/withdrawals.go
lines 109-130): delegate to the store's `ConfirmWithdrawal`, swallowing a
`store.ErrDuplicateTransaction`. -/
def apiConfirmWithdrawal (st : Store) : Except GoError Store :=
  match serviceConfirmWithdrawal st with
  | .error e => if e.errorsIs .storeDuplicate then .ok st else .error e
  | .ok st' => .ok st'

/-- The wallet fallback at the end of `handlePendingWithdrawal`
(src/unnamed/part_006 lines 269-292): wallet -> pending via
`ProcessWithdrawalFromWallet`, wrapping any failure. -/
def pendingWalletFallback (st : Store) (tx : PrimeTransaction) (wallet : WalletInfo)
    (canonicalSymbol : String) (amount : ℚ) : Option GoError × Store :=
  match serviceProcessWithdrawalFromWallet st
      { transactionId := tx.id, status := tx.status, symbol := canonicalSymbol,
        amount := amount, walletId := wallet.id } with
  | .error e => (some (.wrapf "failed to process pending withdrawal from wallet: " e ""), st)
  | .ok st' => (none, st')

/-- `SendReceiveListener.handlePendingWithdrawal` (src/unnamed/part_006
lines 186-293): abs the amount, skip zero; match a user by destination
address, then by idempotency-key prefix; debit a matched user via
`ProcessWithdrawal` (store-duplicate tolerated, other failures fall
through); otherwise debit the Prime wallet into pending. -/
def handlePendingWithdrawal (st : Store) (tx : PrimeTransaction) (wallet : WalletInfo) :
    Option GoError × Store :=
  match tx.amount with
  | none => (some (.wrapf "invalid amount: " (.msg "decimal parse") ""), st)
  | some amt0 =>
    let amount := if amt0 < 0 then -amt0 else amt0
    if amount = 0 then (none, st)
    else
      let canonicalSymbol := normalizeSymbol tx.symbol
      let destAddr := resolveDestAddr tx
      let userIdByAddr : String :=
        if destAddr != "" then
          match findUserByAddress st destAddr with
          | some (user, _) => user.id
          | none => ""
        else ""
      let userId : String :=
        if userIdByAddr = "" then
          match findUserByIdemKeyPfxStore st tx.idempotencyKey with
          | .ok matched => matched
          | .error _ => ""
        else userIdByAddr
      if userId != "" then
        match serviceProcessWithdrawal st userId canonicalSymbol amount tx.id with
        | .error e =>
          if e.errorsIs .storeDuplicate then (none, st)
          else pendingWalletFallback st tx wallet canonicalSymbol amount
        | .ok st' => (none, st')
      else pendingWalletFallback st tx wallet canonicalSymbol amount

/-- `SendReceiveListener.handleFailedWithdrawal` (src/unnamed/part_006
lines 296-434): abs the amount, skip non-positive; with no user match
record the synthetic platform-level initiation + reversal; with a match
try the (relational: unsupported) native revert, then the compensating
`CreditBackFailedWithdrawal`, tolerating duplicate-text results. -/
def handleFailedWithdrawal (st : Store) (tx : PrimeTransaction) (wallet : WalletInfo) :
    Option GoError × Store :=
  match tx.amount with
  | none => (some (.wrapf "invalid amount: " (.msg "decimal parse") ""), st)
  | some amt0 =>
    let amount := if amt0 < 0 then -amt0 else amt0
    if amount ≤ 0 then (none, st)
    else
      match findUserByIdemKeyPfxStore st tx.idempotencyKey with
      | .error _ =>
        match serviceRecordFailedWithdrawalPlatform st
            { transactionId := tx.id, status := tx.status,
              symbol := normalizeSymbol tx.symbol, amount := amount,
              walletId := wallet.id } with
        | .error e =>
          (some (.wrapf "failed to record platform-level failed withdrawal: " e ""), st)
        | .ok st' => (none, st')
      | .ok userId =>
        let canonicalSymbol := normalizeSymbol tx.symbol
        match serviceRevertTransaction with
        | .ok st' => (none, st')
        | .error revertErr =>
          if goStringsContains revertErr.render "no transaction found" then (none, st)
          else
            let r := apiCreditBackFailedWithdrawal st userId canonicalSymbol amount
              tx.idempotencyKey
            if r.1.success then (none, r.2)
            else if goStringsContains r.1.error "duplicate transaction" then (none, st)
            else (some (.msg ("failed withdrawal credit-back failed: " ++ r.1.error)), st)

/-- The `TRANSACTION_DONE` tail of `SendReceiveListener.processWithdrawal`
(src/unnamed/part_006 lines 71-179): abs the amount, skip zero; match a
user by destination address, then idempotency-key prefix, else the
platform account; confirm from pending if a W1 reservation exists under
the idempotency key or the Prime transaction id, else debit directly. -/
def processDoneWithdrawal (st : Store) (tx : PrimeTransaction) (wallet : WalletInfo)
    (portfolioId : String) : Option GoError × Store :=
  match tx.amount with
  | none => (some (.wrapf "invalid amount: " (.msg "decimal parse") ""), st)
  | some amt0 =>
    let amount := if amt0 < 0 then -amt0 else amt0
    if amount = 0 then (none, st)
    else
      let canonicalSymbol := normalizeSymbol tx.symbol
      let destAddr := resolveDestAddr tx
      let userIdByAddr : String :=
        if destAddr != "" then
          match findUserByAddress st destAddr with
          | some (user, _) => user.id
          | none => ""
        else ""
      let userIdMatched : String :=
        if userIdByAddr = "" then
          match findUserByIdemKeyPfxStore st tx.idempotencyKey with
          | .ok matched => matched
          | .error _ => ""
        else userIdByAddr
      let userId : String :=
        if userIdMatched = "" then "prime-platform-" ++ portfolioId else userIdMatched
      let hasPending : Bool :=
        serviceHasPendingWithdrawal st tx.idempotencyKey ||
          serviceHasPendingWithdrawal st tx.id
      if hasPending then
        match apiConfirmWithdrawal st with
        | .error e =>
          if e.errorsIs .storeDuplicate then (none, st)
          else (some (.wrapf "failed to confirm withdrawal from pending: " e ""), st)
        | .ok st' => (none, st')
      else
        match serviceConfirmWithdrawalDirect st
            { userId := userId, asset := canonicalSymbol, amount := amount,
              externalTxId := tx.id } with
        | .error e => (some (.wrapf "failed to record confirmed withdrawal: " e ""), st)
        | .ok st' => (none, st')

/-- `SendReceiveListener.processWithdrawal` (src/unnamed/part_006 lines
34-69): terminal failures -> credit back; `OTHER_TRANSACTION_STATUS` ->
pending handler; any other non-`TRANSACTION_DONE` status -> skip with
`nil`; `TRANSACTION_DONE` -> confirm. -/
def listenerProcessWithdrawal (st : Store) (tx : PrimeTransaction) (wallet : WalletInfo)
    (portfolioId : String) : Option GoError × Store :=
  if terminalFailures tx.status then handleFailedWithdrawal st tx wallet
  else if tx.status = "OTHER_TRANSACTION_STATUS" then handlePendingWithdrawal st tx wallet
  else if tx.status != "TRANSACTION_DONE" then (none, st)
  else processDoneWithdrawal st tx wallet portfolioId

/-- `SendReceiveListener.processDepositPending`
(src/internal/listener/deposit.go lines 202-235): parse and abs-check the
amount, then `ProcessDepositPending` (a relational no-op), tolerating the
store-duplicate sentinel. -/
def processDepositPending (st : Store) (tx : PrimeTransaction) : Option GoError × Store :=
  match tx.amount with
  | none => (some (.wrapf "invalid amount: " (.msg "decimal parse") ""), st)
  | some amt =>
    if amt ≤ 0 then (none, st)
    else
      match serviceProcessDepositPending st with
      | .error e =>
        if e.errorsIs .storeDuplicate then (none, st)
        else (some (.wrapf "failed to record pending deposit: " e ""), st)
      | .ok st' => (none, st')

/-- `SendReceiveListener.processDepositConfirmed`
(src/internal/listener/deposit.go lines 238-383): parse the amount, skip
non-positive; look up by `AccountIdentifier` else `Address`, skip when
empty; try `ConfirmDeposit`, falling back to the api `ProcessDeposit`
whose failure strings for duplicates and unknown addresses are tolerated. -/
def processDepositConfirmed (st : Store) (tx : PrimeTransaction) : Option GoError × Store :=
  match tx.amount with
  | none => (some (.wrapf "invalid amount: " (.msg "decimal parse") ""), st)
  | some amt =>
    if amt ≤ 0 then (none, st)
    else
      let lookupAddress :=
        if tx.transferToAccountIdentifier != "" then tx.transferToAccountIdentifier
        else tx.transferToAddress
      if lookupAddress = "" then (none, st)
      else
        match serviceConfirmDeposit st lookupAddress tx.symbol amt tx.id with
        | .ok st' => (none, st')
        | .error _ =>
          let r := apiProcessDeposit st lookupAddress tx.symbol amt tx.id
          if r.1.success then (none, r.2)
          else if r.1.error = "duplicate transaction" then (none, st)
          else if r.1.error = "no user found for address" then (none, st)
          else (some (.msg ("deposit processing failed: " ++ r.1.error)), st)

/-- `SendReceiveListener.processDeposit` (src/internal/listener/deposit.go,
second document, lines 184-199): `TRANSACTION_IMPORT_PENDING` -> pending
phase, `TRANSACTION_IMPORTED` -> confirm phase, anything else -> skip with
`nil`. -/
def listenerProcessDeposit (st : Store) (tx : PrimeTransaction) : Option GoError × Store :=
  if tx.status = "TRANSACTION_IMPORT_PENDING" then processDepositPending st tx
  else if tx.status = "TRANSACTION_IMPORTED" then processDepositConfirmed st tx
  else (none, st)

def c4Store : Store :=
  { users := [{ id := "user-1", name := "User One", email := "u1@example.com", active := true }],
    addresses := [], balances := [], transactions := [], nextId := 0 }

def c4Tx : PrimeTransaction :=
  { id := "w-42", transactionId := "ptx-42", status := "TRANSACTION_STARTED",
    symbol := "USDC", amount := some 5, network := "base",
    idempotencyKey := "user-1-abc", transferToAddress := "",
    transferToValue := "", transferToAccountIdentifier := "" }

/-- C4 counterexample: a WITHDRAWAL in status `TRANSACTION_STARTED` is
non-terminal and not done, and the ledger holds no W1 reservation for
either its idempotency key or its id, yet `processWithdrawal` returns
`nil` with the store untouched: no W2 wallet-to-pending event is
recorded. Only `OTHER_TRANSACTION_STATUS` reaches the pending handler. -/
theorem c4_counterexample :
    terminalFailures "TRANSACTION_STARTED" = false ∧
    "TRANSACTION_STARTED" ≠ "TRANSACTION_DONE" ∧
    serviceHasPendingWithdrawal c4Store "user-1-abc" = false ∧
    serviceHasPendingWithdrawal c4Store "w-42" = false ∧
    listenerProcessWithdrawal c4Store c4Tx { id := "wallet-1" } "pf-1" = (none, c4Store) :=
  ⟨rfl, by decide, rfl, rfl, rfl⟩

/-- C4 amended: in `processWithdrawal`, a non-terminal status other than
`TRANSACTION_DONE` reaches the pending (W2) path only when it is exactly
`OTHER_TRANSACTION_STATUS`; every other such status is skipped with no
ledger mutation, whether or not a W1 reservation exists. For
`OTHER_TRANSACTION_STATUS` the event is routed to
`handlePendingWithdrawal`, and when no user matches (empty destination
fields, no idempotency-key match) and the Prime transaction id is fresh,
a W2 wallet-to-pending row is recorded against the `prime-platform`
account for the negated (absolute) amount. -/
theorem c4_amended_pending_only_for_other_status :
    ∀ (st : Store) (tx : PrimeTransaction) (w : WalletInfo) (pid : String),
      terminalFailures tx.status = false →
      tx.status ≠ "TRANSACTION_DONE" →
      ((tx.status ≠ "OTHER_TRANSACTION_STATUS" →
          listenerProcessWithdrawal st tx w pid = (none, st)) ∧
       (tx.status = "OTHER_TRANSACTION_STATUS" →
          listenerProcessWithdrawal st tx w pid = handlePendingWithdrawal st tx w) ∧
       (tx.status = "OTHER_TRANSACTION_STATUS" →
        ∀ a : ℚ, tx.amount = some a → 0 < a →
        tx.transferToAddress = "" → tx.transferToValue = "" →
        tx.transferToAccountIdentifier = "" →
        (∀ s, findUserByIdemKeyPfxStore st tx.idempotencyKey ≠ .ok s) →
        checkDuplicateTransaction st.transactions tx.id = false →
        ∃ st', listenerProcessWithdrawal st tx w pid = (none, st') ∧
          st'.transactions = st.transactions ++
            [mkTxRow st.nextId
              { userId := "prime-platform", asset := normalizeSymbol tx.symbol,
                transactionType := "withdrawal", amount := -a,
                externalTxId := tx.id, address := "",
                reference := "WITHDRAWAL_PENDING" }
              (getBalance st "prime-platform" (normalizeSymbol tx.symbol))
              (getBalance st "prime-platform" (normalizeSymbol tx.symbol) + -a)])) := by
  intro st tx w pid hterm hdone
  refine ⟨?_, ?_, ?_⟩
  · intro hother
    simp [listenerProcessWithdrawal, hterm, hother, hdone]
  · intro hother
    simp [listenerProcessWithdrawal, terminalFailures, hother]
  · intro hother a ha hpos h1 h2 h3 hnouser hfresh
    have hred : listenerProcessWithdrawal st tx w pid = handlePendingWithdrawal st tx w := by
      simp [listenerProcessWithdrawal, terminalFailures, hother]
    have hamt : (if a < 0 then -a else a) = a := if_neg (not_lt.mpr hpos.le)
    have hdest : resolveDestAddr tx = "" := by
      simp [resolveDestAddr, h1, h2, h3]
    obtain ⟨st1, hok⟩ := processTransaction_progress st
      { userId := "prime-platform", asset := normalizeSymbol tx.symbol,
        transactionType := "withdrawal", amount := -a, externalTxId := tx.id,
        address := "", reference := "WITHDRAWAL_PENDING" }
      (by simp [hfresh])
    have hspec := processTransaction_ok_spec st
      { userId := "prime-platform", asset := normalizeSymbol tx.symbol,
        transactionType := "withdrawal", amount := -a, externalTxId := tx.id,
        address := "", reference := "WITHDRAWAL_PENDING" } st1 hok
    refine ⟨st1, ?_, ?_⟩
    · rw [hred]
      unfold handlePendingWithdrawal
      cases hk : findUserByIdemKeyPfxStore st tx.idempotencyKey with
      | ok s => exact absurd hk (hnouser s)
      | error e =>
        simp only [ha, hamt, hdest, hk, ne_eq, ne_of_gt hpos, bne_self_eq_false,
          Bool.false_eq_true, if_false, pendingWalletFallback,
          serviceProcessWithdrawalFromWallet, hok]
        simp
    · exact hspec.2.2.2.1

def c4WTx : PrimeTransaction :=
  { id := "w-77", transactionId := "ptx-77", status := "OTHER_TRANSACTION_STATUS",
    symbol := "BASEUSDC", amount := some 3, network := "base",
    idempotencyKey := "", transferToAddress := "",
    transferToValue := "", transferToAccountIdentifier := "" }

/-- C4 amended, at a concrete input: status `OTHER_TRANSACTION_STATUS`,
no user match, fresh id; the theorem applies and yields the W2 record. -/
theorem c4_amended_witness :
    (c4WTx.status ≠ "OTHER_TRANSACTION_STATUS" →
      listenerProcessWithdrawal c4Store c4WTx { id := "wallet-1" } "pf-1" = (none, c4Store)) ∧
    (c4WTx.status = "OTHER_TRANSACTION_STATUS" →
      listenerProcessWithdrawal c4Store c4WTx { id := "wallet-1" } "pf-1" =
        handlePendingWithdrawal c4Store c4WTx { id := "wallet-1" }) ∧
    (c4WTx.status = "OTHER_TRANSACTION_STATUS" →
      ∀ a : ℚ, c4WTx.amount = some a → 0 < a →
      c4WTx.transferToAddress = "" → c4WTx.transferToValue = "" →
      c4WTx.transferToAccountIdentifier = "" →
      (∀ s, findUserByIdemKeyPfxStore c4Store c4WTx.idempotencyKey ≠ .ok s) →
      checkDuplicateTransaction c4Store.transactions c4WTx.id = false →
      ∃ st', listenerProcessWithdrawal c4Store c4WTx { id := "wallet-1" } "pf-1" = (none, st') ∧
        st'.transactions = c4Store.transactions ++
          [mkTxRow c4Store.nextId
            { userId := "prime-platform", asset := normalizeSymbol c4WTx.symbol,
              transactionType := "withdrawal", amount := -a,
              externalTxId := c4WTx.id, address := "",
              reference := "WITHDRAWAL_PENDING" }
            (getBalance c4Store "prime-platform" (normalizeSymbol c4WTx.symbol))
            (getBalance c4Store "prime-platform" (normalizeSymbol c4WTx.symbol) + -a)]) :=
  c4_amended_pending_only_for_other_status c4Store c4WTx { id := "wallet-1" } "pf-1"
    rfl (by decide)

def c5Store : Store :=
  { users := [{ id := "user-2", name := "User Two", email := "u2@example.com", active := true }],
    addresses := [{ userId := "user-2", asset := "USDC", network := "base",
                    address := "0xabc", walletId := "wal-1", accountIdentifier := "acct-1" }],
    balances := [], transactions := [], nextId := 0 }

def c5Tx : PrimeTransaction :=
  { id := "d-9", transactionId := "ptx-9", status := "TRANSACTION_DONE",
    symbol := "USDC", amount := some 3, network := "base",
    idempotencyKey := "", transferToAddress := "0xabc",
    transferToValue := "", transferToAccountIdentifier := "acct-1" }

/-- C5 counterexample: a DEPOSIT in status `TRANSACTION_DONE` (neither
`TRANSACTION_IMPORT_PENDING` nor `TRANSACTION_IMPORTED`) addressed to a
known user is returned `nil` with the store untouched: nothing is
recorded, platform transaction or otherwise. -/
theorem c5_counterexample :
    "TRANSACTION_DONE" ≠ "TRANSACTION_IMPORT_PENDING" ∧
    "TRANSACTION_DONE" ≠ "TRANSACTION_IMPORTED" ∧
    listenerProcessDeposit c5Store c5Tx = (none, c5Store) :=
  ⟨by decide, by decide, rfl⟩

/-- C5 amended: the deposit dispatcher handles exactly
`TRANSACTION_IMPORT_PENDING` (pending phase) and `TRANSACTION_IMPORTED`
(confirm phase); a deposit in any other status is silently skipped - the
handler returns `nil` and the store is unchanged, with no platform
transaction recorded. -/
theorem c5_amended_other_status_deposits_skipped :
    ∀ (st : Store) (tx : PrimeTransaction),
      tx.status ≠ "TRANSACTION_IMPORT_PENDING" →
      tx.status ≠ "TRANSACTION_IMPORTED" →
      listenerProcessDeposit st tx = (none, st) := by
  intro st tx h1 h2
  simp [listenerProcessDeposit, h1, h2]

def c5WTx : PrimeTransaction :=
  { id := "d-10", transactionId := "ptx-10", status := "TRANSACTION_CANCELLED",
    symbol := "USDC", amount := some 7, network := "base",
    idempotencyKey := "", transferToAddress := "0xabc",
    transferToValue := "", transferToAccountIdentifier := "" }

/-- C5 amended, at a concrete input: a `TRANSACTION_CANCELLED` deposit is
skipped with the store unchanged. -/
theorem c5_amended_witness :
    listenerProcessDeposit c5Store c5WTx = (none, c5Store) :=
  c5_amended_other_status_deposits_skipped c5Store c5WTx (by decide) (by decide)
